import Mathlib

/-
Verification of the CHIP-8 interpreter core (package chip8).

The Go sources are embedded shallowly:
  * machine integers are Nat with explicit `% 2 ^ w` wherever the Go
    code performs uint16 arithmetic that can wrap; Go `byte` values are
    Nat values kept below 256 by the operations themselves,
  * fixed-size Go arrays ([4096]byte, [16]byte, [16]uint16, [2048]byte)
    are Lean lists of the corresponding length; a Go index expression
    becomes `getA` / `setA`, which produce the `oob` outcome (a runtime
    index-out-of-range panic in Go) when the index is out of bounds,
  * a handler that returns a non-nil Go error is modelled by the `fail`
    outcome carrying the error data (the Pseudo / Result trace strings
    of the Go code carry no machine state and are not modelled),
  * the 60 Hz timer channel select in EmulateCycle is modelled by an
    explicit Boolean `tick` parameter (true when the select would
    receive from the ticker channel), and the random byte drawn by
    opcode 0xC000 (byte(rand.Float32()*255)) is an explicit `randB`
    parameter threaded through the dispatcher.
-/

/-- Outcome of running a piece of Go code: normal result, a returned
Go error value, or a runtime panic (index out of range). -/
inductive Exec (α : Type) where
  | ok (a : α)
  | fail (e : Nat)
  | oob
deriving DecidableEq

/-- Error data for the only error the opcode handlers construct:
fmt.Errorf("unknown opcode: 0x%X", opcode). The payload is the opcode
value that the message reports; the program counter is not part of it. -/
def unknownOpcode (opcode : Nat) : Nat := opcode

def Exec.bind {α β : Type} : Exec α → (α → Exec β) → Exec β
  | .ok a, f => f a
  | .fail e, _ => .fail e
  | .oob, _ => .oob

instance : Monad Exec where
  pure := Exec.ok
  bind := Exec.bind

/-- Read of a Go array element `l[i]`; out-of-range reads panic. -/
def getA (l : List Nat) (i : Nat) : Exec Nat :=
  match l[i]? with
  | some v => .ok v
  | none => .oob

/-- Write of a Go array element `l[i] = v`; out-of-range writes panic. -/
def setA (l : List Nat) (i : Nat) (v : Nat) : Exec (List Nat) :=
  if i < l.length then .ok (l.set i v) else .oob

/-- Generic Go for-loop: run the body on each index of the list in
order, threading the loop state; errors and panics abort the loop. -/
def execFold {α : Type} (f : α → Nat → Exec α) (a : α) : List Nat → Exec α
  | [] => .ok a
  | i :: rest =>
    match f a i with
    | .ok a' => execFold f a' rest
    | .fail e => .fail e
    | .oob => .oob

/-- The Chip8 struct of src/chip8.go (trace plumbing, ticker and beep
channel omitted: they carry no machine state used by any opcode). -/
structure Chip8 where
  memory : List Nat
  V : List Nat
  I : Nat
  pc : Nat
  gfx : List Nat
  delayTimer : Nat
  soundTimer : Nat
  stack : List Nat
  sp : Nat
  key : List Nat
  drawFlag : Bool
deriving DecidableEq

/-- Handler for opcode group 0x0 (clear screen / return). On return the
Go code decrements the uint16 stack pointer (wrapping at zero) and then
indexes the 16-entry stack with it. -/
def opcode0x0000 (c : Chip8) (op : Nat) : Exec Chip8 :=
  if op % 256 = 0xE0 then
    .ok { c with gfx := List.replicate (64 * 32) 0, pc := (c.pc + 2) % 65536 }
  else if op % 256 = 0xEE then
    -- c.sp--
    let sp := (c.sp + 65536 - 1) % 65536
    Exec.bind (getA c.stack sp) fun v =>
      -- c.pc = c.stack[c.sp] + 2
      .ok { c with sp := sp, pc := (v + 2) % 65536 }
  else
    .fail (unknownOpcode op)

/-- Handler for opcode 0x1NNN (jump). -/
def opcode0x1000 (c : Chip8) (op : Nat) : Exec Chip8 :=
  .ok { c with pc := op % 4096 }

/-- Handler for opcode 0x2NNN (call): store pc on the stack at the
current stack pointer, increment the pointer, jump to NNN. There is no
capacity check; at sp = 16 the store indexes past the stack. -/
def opcode0x2000 (c : Chip8) (op : Nat) : Exec Chip8 :=
  Exec.bind (setA c.stack c.sp c.pc) fun st =>
    .ok { c with stack := st, sp := (c.sp + 1) % 65536, pc := op % 4096 }

/-- Handler for opcode 0x3XNN (skip if VX equals NN). -/
def opcode0x3000 (c : Chip8) (op : Nat) : Exec Chip8 :=
  let x := op / 256 % 16
  let nn := op % 256
  Exec.bind (getA c.V x) fun vx =>
    if vx = nn then .ok { c with pc := (c.pc + 4) % 65536 }
    else .ok { c with pc := (c.pc + 2) % 65536 }

/-- Handler for opcode 0x4XNN (skip if VX differs from NN). -/
def opcode0x4000 (c : Chip8) (op : Nat) : Exec Chip8 :=
  let x := op / 256 % 16
  let nn := op % 256
  Exec.bind (getA c.V x) fun vx =>
    if vx ≠ nn then .ok { c with pc := (c.pc + 4) % 65536 }
    else .ok { c with pc := (c.pc + 2) % 65536 }

/-- Handler for opcode 0x5XY0 (skip if VX equals VY). -/
def opcode0x5000 (c : Chip8) (op : Nat) : Exec Chip8 :=
  let x := op / 256 % 16
  let y := op / 16 % 16
  Exec.bind (getA c.V x) fun vx =>
    Exec.bind (getA c.V y) fun vy =>
      if vx = vy then .ok { c with pc := (c.pc + 4) % 65536 }
      else .ok { c with pc := (c.pc + 2) % 65536 }

/-- Handler for opcode 0x6XNN (set VX to NN). -/
def opcode0x6000 (c : Chip8) (op : Nat) : Exec Chip8 :=
  let x := op / 256 % 16
  Exec.bind (setA c.V x (op % 256)) fun v =>
    .ok { c with V := v, pc := (c.pc + 2) % 65536 }

/-- Handler for opcode 0x7XNN (add NN to VX, 8-bit wraparound, no flag). -/
def opcode0x7000 (c : Chip8) (op : Nat) : Exec Chip8 :=
  let x := op / 256 % 16
  Exec.bind (getA c.V x) fun vx =>
    Exec.bind (setA c.V x ((vx + op % 256) % 256)) fun v =>
      .ok { c with V := v, pc := (c.pc + 2) % 65536 }

/-- Handler for opcode group 0x8 (register arithmetic). The Go switch
is rendered as an if-chain on the low nibble. In cases 4, 5 and 7 the
flag register is written before the result expression is evaluated, so
the result expression reads the register file after that write; the two
shift cases write the result first and the flag second. Go byte
subtraction a - b appears as (a + 256 - b) % 256, a & 0x01 as a % 2 and
a & 0x80 as a / 128 % 2 * 128 (equal on all naturals). -/
def opcode0x8000 (c : Chip8) (op : Nat) : Exec Chip8 :=
  let x := op / 256 % 16
  let y := op / 16 % 16
  if op % 16 = 0 then
    Exec.bind (getA c.V y) fun vy =>
      Exec.bind (setA c.V x vy) fun v =>
        .ok { c with V := v, pc := (c.pc + 2) % 65536 }
  else if op % 16 = 1 then
    Exec.bind (getA c.V x) fun vx =>
      Exec.bind (getA c.V y) fun vy =>
        Exec.bind (setA c.V x (Nat.lor vx vy)) fun v =>
          .ok { c with V := v, pc := (c.pc + 2) % 65536 }
  else if op % 16 = 2 then
    Exec.bind (getA c.V x) fun vx =>
      Exec.bind (getA c.V y) fun vy =>
        Exec.bind (setA c.V x (Nat.land vx vy)) fun v =>
          .ok { c with V := v, pc := (c.pc + 2) % 65536 }
  else if op % 16 = 3 then
    Exec.bind (getA c.V x) fun vx =>
      Exec.bind (getA c.V y) fun vy =>
        Exec.bind (setA c.V x (Nat.xor vx vy)) fun v =>
          .ok { c with V := v, pc := (c.pc + 2) % 65536 }
  else if op % 16 = 4 then
    -- if c.V[y] > 0xFF - c.V[x] then VF = 1 else VF = 0; then V[x] += V[y]
    Exec.bind (getA c.V x) fun vx =>
      Exec.bind (getA c.V y) fun vy =>
        Exec.bind (setA c.V 15 (if 255 - vx < vy then 1 else 0)) fun v1 =>
          Exec.bind (getA v1 x) fun vx2 =>
            Exec.bind (getA v1 y) fun vy2 =>
              Exec.bind (setA v1 x ((vx2 + vy2) % 256)) fun v2 =>
                .ok { c with V := v2, pc := (c.pc + 2) % 65536 }
  else if op % 16 = 5 then
    -- if c.V[y] > c.V[x] then VF = 0 else VF = 1; then V[x] -= V[y]
    Exec.bind (getA c.V x) fun vx =>
      Exec.bind (getA c.V y) fun vy =>
        Exec.bind (setA c.V 15 (if vx < vy then 0 else 1)) fun v1 =>
          Exec.bind (getA v1 x) fun vx2 =>
            Exec.bind (getA v1 y) fun vy2 =>
              Exec.bind (setA v1 x ((vx2 + 256 - vy2) % 256)) fun v2 =>
                .ok { c with V := v2, pc := (c.pc + 2) % 65536 }
  else if op % 16 = 6 then
    -- V[x] = V[y] >> 1; then VF = V[y] & 0x01 (read after the store)
    Exec.bind (getA c.V y) fun vy =>
      Exec.bind (setA c.V x (vy / 2)) fun v1 =>
        Exec.bind (getA v1 y) fun vy2 =>
          Exec.bind (setA v1 15 (vy2 % 2)) fun v2 =>
            .ok { c with V := v2, pc := (c.pc + 2) % 65536 }
  else if op % 16 = 7 then
    -- if c.V[x] > c.V[y] then VF = 0 else VF = 1; then V[x] = V[y] - V[x]
    Exec.bind (getA c.V x) fun vx =>
      Exec.bind (getA c.V y) fun vy =>
        Exec.bind (setA c.V 15 (if vy < vx then 0 else 1)) fun v1 =>
          Exec.bind (getA v1 x) fun vx2 =>
            Exec.bind (getA v1 y) fun vy2 =>
              Exec.bind (setA v1 x ((vy2 + 256 - vx2) % 256)) fun v2 =>
                .ok { c with V := v2, pc := (c.pc + 2) % 65536 }
  else if op % 16 = 14 then
    -- V[x] = V[y] << 1; then VF = V[y] & 0x80 (read after the store)
    Exec.bind (getA c.V y) fun vy =>
      Exec.bind (setA c.V x (vy * 2 % 256)) fun v1 =>
        Exec.bind (getA v1 y) fun vy2 =>
          Exec.bind (setA v1 15 (vy2 / 128 % 2 * 128)) fun v2 =>
            .ok { c with V := v2, pc := (c.pc + 2) % 65536 }
  else
    .fail (unknownOpcode op)

/-- Handler for opcode 0x9XY0 (skip if VX differs from VY). -/
def opcode0x9000 (c : Chip8) (op : Nat) : Exec Chip8 :=
  let x := op / 256 % 16
  let y := op / 16 % 16
  Exec.bind (getA c.V x) fun vx =>
    Exec.bind (getA c.V y) fun vy =>
      if vx ≠ vy then .ok { c with pc := (c.pc + 4) % 65536 }
      else .ok { c with pc := (c.pc + 2) % 65536 }

/-- Handler for opcode 0xANNN (set the index register). -/
def opcode0xA000 (c : Chip8) (op : Nat) : Exec Chip8 :=
  .ok { c with I := op % 4096, pc := (c.pc + 2) % 65536 }

/-- Handler for opcode 0xBNNN (jump to V0 + NNN, uint16 arithmetic). -/
def opcode0xB000 (c : Chip8) (op : Nat) : Exec Chip8 :=
  Exec.bind (getA c.V 0) fun v0 =>
    .ok { c with pc := (v0 + op % 4096) % 65536 }

/-- Handler for opcode 0xCXNN (random byte AND NN); randB stands for the
byte byte(rand.Float32()*255) drawn by the Go code. -/
def opcode0xC000 (c : Chip8) (randB : Nat) (op : Nat) : Exec Chip8 :=
  let x := op / 256 % 16
  Exec.bind (setA c.V x (Nat.land (randB % 256) (op % 256))) fun v =>
    .ok { c with V := v, pc := (c.pc + 2) % 65536 }

/-- Body of the inner xline loop of the draw handler (opcode 0xD000):
index = x + xline + (y + yline)*64 in uint16 arithmetic; indices
greater than len(gfx) = 2048 are skipped; for a set sprite bit
(pixel & (0x80 >> xline), rendered as pixel / 2 ^ (7 - xline) % 2) the
flag register is set when the pixel is already on, then the pixel is
XORed with 1. The loop state is the pair (gfx, V). -/
def drawColsStep (pixel xv yb : Nat) (acc : List Nat × List Nat) (xline : Nat) :
    Exec (List Nat × List Nat) :=
  let index := (xv + xline + yb * 64) % 65536
  if 64 * 32 < index then .ok acc
  else if pixel / 2 ^ (7 - xline) % 2 = 1 then
    Exec.bind (getA acc.1 index) fun g =>
      Exec.bind (if g = 1 then setA acc.2 15 1 else .ok acc.2) fun v =>
        Exec.bind (setA acc.1 index (Nat.xor g 1)) fun gfx =>
          .ok (gfx, v)
  else .ok acc

/-- Body of the outer yline loop of the draw handler: read the sprite
row byte at memory[I + yline] (uint16 index arithmetic) and run the
inner loop over the eight sprite bits. -/
def drawRowStep (mem : List Nat) (I xv yv : Nat) (acc : List Nat × List Nat)
    (yline : Nat) : Exec (List Nat × List Nat) :=
  Exec.bind (getA mem ((I + yline) % 65536)) fun pixel =>
    execFold (drawColsStep pixel xv (yv + yline)) acc (List.range 8)

/-- Handler for opcode 0xDXYN (draw sprite): x and y are the values of
VX and VY, the flag register is cleared, then the nested loops run,
then the draw flag is raised and pc advances by 2. -/
def opcode0xD000 (c : Chip8) (op : Nat) : Exec Chip8 :=
  Exec.bind (getA c.V (op / 256 % 16)) fun xv =>
    Exec.bind (getA c.V (op / 16 % 16)) fun yv =>
      Exec.bind (setA c.V 15 0) fun v0 =>
        Exec.bind
          (execFold (drawRowStep c.memory c.I xv yv) (c.gfx, v0)
            (List.range (op % 16))) fun acc =>
          .ok { c with gfx := acc.1, V := acc.2, drawFlag := true,
                       pc := (c.pc + 2) % 65536 }

/-- Handler for opcode group 0xE (key skips). The Go switch has cases
only for 0x9E and 0xA1 and no default, so any other low byte falls
through and the handler returns a success with the state untouched. On
a positive 0x9E match or a negative 0xA1 match the tested key is
cleared. The key array is indexed with the byte value of VX. -/
def opcode0xE000 (c : Chip8) (op : Nat) : Exec Chip8 :=
  let x := op / 256 % 16
  if op % 256 = 0x9E then
    Exec.bind (getA c.V x) fun vx =>
      Exec.bind (getA c.key vx) fun k =>
        if k ≠ 0 then
          Exec.bind (setA c.key vx 0) fun key =>
            .ok { c with pc := (c.pc + 4) % 65536, key := key }
        else .ok { c with pc := (c.pc + 2) % 65536 }
  else if op % 256 = 0xA1 then
    Exec.bind (getA c.V x) fun vx =>
      Exec.bind (getA c.key vx) fun k =>
        if k = 0 then .ok { c with pc := (c.pc + 4) % 65536 }
        else
          Exec.bind (setA c.key vx 0) fun key =>
            .ok { c with pc := (c.pc + 2) % 65536, key := key }
  else .ok c

/-- The range loop of opcode 0xFX0A: scan the key array from index i
upward; at the first nonzero entry store its index into VX, advance pc
by 2 and stop. If no key is pressed the loop falls through and the
state is returned unchanged. The list argument is the remaining
suffix of c.key, so the recursion is structural. -/
def waitKeyScan (c : Chip8) (x : Nat) : Nat → List Nat → Exec Chip8
  | _, [] => .ok c
  | i, k :: rest =>
    if k ≠ 0 then
      Exec.bind (setA c.V x i) fun v =>
        .ok { c with V := v, pc := (c.pc + 2) % 65536 }
    else waitKeyScan c x (i + 1) rest

/-- Handler for opcode group 0xF, an if-chain over the low byte of the
opcode mirroring the Go switch. Case 0x0A runs the key scan and then
unconditionally clears key[V[x]] with the value V[x] holds after the
scan; cases 0x55 and 0x65 run the register dump and load loops
(i from 0 to x inclusive) over List.range (x + 1). -/
def opcode0xF000 (c : Chip8) (op : Nat) : Exec Chip8 :=
  let x := op / 256 % 16
  if op % 256 = 0x07 then
    Exec.bind (setA c.V x c.delayTimer) fun v =>
      .ok { c with V := v, pc := (c.pc + 2) % 65536 }
  else if op % 256 = 0x0A then
    Exec.bind (waitKeyScan c x 0 c.key) fun c1 =>
      Exec.bind (getA c1.V x) fun vx =>
        Exec.bind (setA c1.key vx 0) fun key =>
          .ok { c1 with key := key }
  else if op % 256 = 0x15 then
    Exec.bind (getA c.V x) fun vx =>
      .ok { c with delayTimer := vx, pc := (c.pc + 2) % 65536 }
  else if op % 256 = 0x18 then
    Exec.bind (getA c.V x) fun vx =>
      .ok { c with soundTimer := vx, pc := (c.pc + 2) % 65536 }
  else if op % 256 = 0x1E then
    Exec.bind (getA c.V x) fun vx =>
      .ok { c with I := (c.I + vx) % 65536, pc := (c.pc + 2) % 65536 }
  else if op % 256 = 0x29 then
    Exec.bind (getA c.V x) fun vx =>
      .ok { c with I := vx * 5 % 65536, pc := (c.pc + 2) % 65536 }
  else if op % 256 = 0x33 then
    Exec.bind (getA c.V x) fun vx =>
      Exec.bind (setA c.memory c.I (vx / 100)) fun m1 =>
        Exec.bind (setA m1 ((c.I + 1) % 65536) (vx / 10 % 10)) fun m2 =>
          Exec.bind (setA m2 ((c.I + 2) % 65536) (vx % 100 % 10)) fun m3 =>
            .ok { c with memory := m3, pc := (c.pc + 2) % 65536 }
  else if op % 256 = 0x55 then
    Exec.bind
      (execFold
        (fun cc i =>
          Exec.bind (getA cc.V i) fun vi =>
            Exec.bind (setA cc.memory ((cc.I + i) % 65536) vi) fun m =>
              .ok { cc with memory := m })
        c (List.range (x + 1))) fun c1 =>
      .ok { c1 with pc := (c1.pc + 2) % 65536 }
  else if op % 256 = 0x65 then
    Exec.bind
      (execFold
        (fun cc i =>
          Exec.bind (getA cc.memory ((cc.I + i) % 65536)) fun mi =>
            Exec.bind (setA cc.V i mi) fun v =>
              .ok { cc with V := v })
        c (List.range (x + 1))) fun c1 =>
      .ok { c1 with pc := (c1.pc + 2) % 65536 }
  else
    .fail (unknownOpcode op)

/-- Dispatch on the high nibble of the opcode, modelling the lookup in
the c.opcodes map built by registerOpcodeHandlers. All sixteen group
keys are registered, so the not-found branch of EmulateCycle is
unreachable and the chain below is total. -/
def dispatch (c : Chip8) (randB op : Nat) : Exec Chip8 :=
  if op / 4096 % 16 = 0x0 then opcode0x0000 c op
  else if op / 4096 % 16 = 0x1 then opcode0x1000 c op
  else if op / 4096 % 16 = 0x2 then opcode0x2000 c op
  else if op / 4096 % 16 = 0x3 then opcode0x3000 c op
  else if op / 4096 % 16 = 0x4 then opcode0x4000 c op
  else if op / 4096 % 16 = 0x5 then opcode0x5000 c op
  else if op / 4096 % 16 = 0x6 then opcode0x6000 c op
  else if op / 4096 % 16 = 0x7 then opcode0x7000 c op
  else if op / 4096 % 16 = 0x8 then opcode0x8000 c op
  else if op / 4096 % 16 = 0x9 then opcode0x9000 c op
  else if op / 4096 % 16 = 0xA then opcode0xA000 c op
  else if op / 4096 % 16 = 0xB then opcode0xB000 c op
  else if op / 4096 % 16 = 0xC then opcode0xC000 c randB op
  else if op / 4096 % 16 = 0xD then opcode0xD000 c op
  else if op / 4096 % 16 = 0xE then opcode0xE000 c op
  else opcode0xF000 c op

/-- EmulateCycle of src/chip8.go: fetch the big-endian opcode from
memory at pc and pc + 1, dispatch it, and on success run the timer
update gated by the 60 Hz ticker select (tick = true when the ticker
fired). A handler error is returned before the timer block runs. The
Result snapshots carry no machine state and are not modelled. -/
def EmulateCycle (randB : Nat) (tick : Bool) (c : Chip8) : Exec Chip8 :=
  Exec.bind (getA c.memory c.pc) fun hi =>
    Exec.bind (getA c.memory ((c.pc + 1) % 65536)) fun lo =>
      Exec.bind (dispatch c randB (hi * 256 + lo)) fun c1 =>
        if tick then
          let d := if 0 < c1.delayTimer then c1.delayTimer - 1 else c1.delayTimer
          let s := if 0 < c1.soundTimer then c1.soundTimer - 1 else c1.soundTimer
          .ok { c1 with delayTimer := d, soundTimer := s }
        else .ok c1

/-- The copy loop of loadROM: memory[i + 512] = bytes[i] for each ROM
byte in order. Recursion is structural on the ROM byte list. -/
def copyROM (mem : List Nat) : Nat → List Nat → Exec (List Nat)
  | _, [] => .ok mem
  | i, b :: rest =>
    Exec.bind (setA mem (i + 512) b) fun m => copyROM m (i + 1) rest

/-- loadROM of src/chip8.go: the bytes read from the reader are copied
into memory starting at address 512 (0x200). No size check precedes
the loop. -/
def loadROM (c : Chip8) (rom : List Nat) : Exec Chip8 :=
  Exec.bind (copyROM c.memory 0 rom) fun m => .ok { c with memory := m }

theorem Exec.bind_ok {α β : Type} (a : α) (f : α → Exec β) :
    Exec.bind (.ok a) f = f a := rfl

theorem Exec.bind_oob {α β : Type} (f : α → Exec β) :
    Exec.bind (.oob : Exec α) f = .oob := rfl

theorem getA_eq_ok {l : List Nat} {i v : Nat} (h : l[i]? = some v) :
    getA l i = .ok v := by simp [getA, h]

theorem getA_eq_oob {l : List Nat} {i : Nat} (h : l.length ≤ i) :
    getA l i = .oob := by simp [getA, List.getElem?_eq_none h]

theorem setA_eq_ok {l : List Nat} {i : Nat} (h : i < l.length) (v : Nat) :
    setA l i v = .ok (l.set i v) := by simp [setA, h]

theorem setA_eq_oob {l : List Nat} {i : Nat} (h : l.length ≤ i) (v : Nat) :
    setA l i v = .oob := by simp [setA, Nat.not_lt.mpr h]

/-- Register projection of an execution outcome, used to observe the
value a handler leaves in a register. -/
def regAt (e : Exec Chip8) (i : Nat) : Option Nat :=
  match e with
  | .ok s => s.V[i]?
  | _ => none

/-- Framebuffer projection of an execution outcome. -/
def gfxAt (e : Exec Chip8) (i : Nat) : Option Nat :=
  match e with
  | .ok s => s.gfx[i]?
  | _ => none

/-- True exactly when the outcome is a returned Go error value. -/
def Exec.isFail {α : Type} : Exec α → Bool
  | .fail _ => true
  | _ => false


/-- C5 amended: with neither operand register being VF, the add opcode
0x8XY4 stores the wrapped sum into VX and sets VF to the carry, and the
subtract opcode 0x8XY5 stores the wrapped difference into VX and sets
VF to 1 exactly when no borrow occurs (VX at least VY) and 0 otherwise.
When X or Y is 0xF the flag write and the result expression interfere;
see the C10 theorem and the C5 counterexample. -/
theorem c5_theorem (c : Chip8) (op vx vy : Nat)
    (hV : c.V.length = 16)
    (hx : op / 256 % 16 ≠ 15) (hy : op / 16 % 16 ≠ 15)
    (hvx : c.V[op / 256 % 16]? = some vx)
    (hvy : c.V[op / 16 % 16]? = some vy)
    (hvxb : vx < 256) (hvyb : vy < 256) :
    (op % 16 = 4 → ∃ d, opcode0x8000 c op = .ok d ∧
      d.V[op / 256 % 16]? = some ((vx + vy) % 256) ∧
      d.V[15]? = some (if 255 < vx + vy then 1 else 0) ∧
      d.pc = (c.pc + 2) % 65536) ∧
    (op % 16 = 5 → ∃ d, opcode0x8000 c op = .ok d ∧
      d.V[op / 256 % 16]? = some ((vx + 256 - vy) % 256) ∧
      d.V[15]? = some (if vy ≤ vx then 1 else 0) ∧
      d.pc = (c.pc + 2) % 65536) := by
  have hx16 : op / 256 % 16 < 16 := Nat.mod_lt _ (by norm_num)
  have hxl : op / 256 % 16 < c.V.length := by omega
  have h15 : (15 : Nat) < c.V.length := by omega
  constructor
  · intro h4
    have hvx2 : (c.V.set 15 (if 255 - vx < vy then 1 else 0))[op / 256 % 16]?
        = some vx := by rw [List.getElem?_set_ne (fun h => hx h.symm)]; exact hvx
    have hvy2 : (c.V.set 15 (if 255 - vx < vy then 1 else 0))[op / 16 % 16]?
        = some vy := by rw [List.getElem?_set_ne (fun h => hy h.symm)]; exact hvy
    have hxl2 : op / 256 % 16 < (c.V.set 15 (if 255 - vx < vy then 1 else 0)).length := by
      rw [List.length_set]; omega
    refine ⟨{ c with
        V := (c.V.set 15 (if 255 - vx < vy then 1 else 0)).set (op / 256 % 16)
              ((vx + vy) % 256),
        pc := (c.pc + 2) % 65536 }, ?_, ?_, ?_, rfl⟩
    · simp only [opcode0x8000, h4, reduceIte, getA_eq_ok hvx, getA_eq_ok hvy,
        setA_eq_ok h15, Exec.bind_ok, getA_eq_ok hvx2, getA_eq_ok hvy2,
        setA_eq_ok hxl2]
      norm_num
    · rw [List.getElem?_set_self hxl2]
    · rw [List.getElem?_set_ne (fun h => hx h), List.getElem?_set_self h15]
      by_cases hc : 255 < vx + vy
      · rw [if_pos (by omega : 255 - vx < vy), if_pos hc]
      · rw [if_neg (by omega : ¬ 255 - vx < vy), if_neg hc]
  · intro h5
    have hvx2 : (c.V.set 15 (if vx < vy then 0 else 1))[op / 256 % 16]?
        = some vx := by rw [List.getElem?_set_ne (fun h => hx h.symm)]; exact hvx
    have hvy2 : (c.V.set 15 (if vx < vy then 0 else 1))[op / 16 % 16]?
        = some vy := by rw [List.getElem?_set_ne (fun h => hy h.symm)]; exact hvy
    have hxl2 : op / 256 % 16 < (c.V.set 15 (if vx < vy then 0 else 1)).length := by
      rw [List.length_set]; omega
    refine ⟨{ c with
        V := (c.V.set 15 (if vx < vy then 0 else 1)).set (op / 256 % 16)
              ((vx + 256 - vy) % 256),
        pc := (c.pc + 2) % 65536 }, ?_, ?_, ?_, rfl⟩
    · simp only [opcode0x8000, h5, reduceIte, getA_eq_ok hvx, getA_eq_ok hvy,
        setA_eq_ok h15, Exec.bind_ok, getA_eq_ok hvx2, getA_eq_ok hvy2,
        setA_eq_ok hxl2]
      norm_num
    · rw [List.getElem?_set_self hxl2]
    · rw [List.getElem?_set_ne (fun h => hx h), List.getElem?_set_self h15]
      by_cases hc : vy ≤ vx
      · rw [if_neg (by omega : ¬ vx < vy), if_pos hc]
      · rw [if_pos (by omega : vx < vy), if_neg hc]

theorem set_zero_of_all_zero {l : List Nat} {i : Nat}
    (h : ∀ a ∈ l, a = 0) (hi : i < l.length) : l.set i 0 = l := by
  apply List.ext_getElem?
  intro n
  rcases eq_or_ne i n with rfl | hne
  · rw [List.getElem?_set_self hi, List.getElem?_eq_getElem hi,
      h _ (List.getElem_mem hi)]
  · rw [List.getElem?_set_ne hne]

/-- Machine state after initialize() with register file v: font bytes do
not matter for the properties below, so memory starts zeroed. -/
def baseChip (v : List Nat) : Chip8 :=
  { memory := List.replicate 4096 0, V := v, I := 0, pc := 512,
    gfx := List.replicate 2048 0, delayTimer := 0, soundTimer := 0,
    stack := List.replicate 16 0, sp := 0, key := List.replicate 16 0,
    drawFlag := false }

/-- C5 counterexample: opcode 0x80F4 (add with Y = 0xF) on V0 = 5,
VF = 7. The claim predicts V0 becomes (5 + 7) mod 256 = 12, but the
handler reads VF after having overwritten it with the carry flag 0, so
V0 stays 5. -/
theorem c5_counterexample :
    regAt (opcode0x8000 (baseChip (((List.replicate 16 0).set 0 5).set 15 7))
      0x80F4) 0 = some 5 ∧
    regAt (opcode0x8000 (baseChip (((List.replicate 16 0).set 0 5).set 15 7))
      0x80F4) 0 ≠ some ((5 + 7) % 256) := by
  decide

/-- C5 witness: opcode 0x8014 on V0 = 5, V1 = 7 stores 12 and carry 0. -/
theorem c5_witness :
    ∃ d, opcode0x8000 (baseChip (((List.replicate 16 0).set 0 5).set 1 7))
        0x8014 = .ok d ∧
      d.V[0]? = some 12 ∧ d.V[15]? = some 0 ∧ d.pc = 514 := by
  have h := (c5_theorem (baseChip (((List.replicate 16 0).set 0 5).set 1 7))
    0x8014 5 7 (by decide) (by decide) (by decide) (by decide) (by decide)
    (by decide) (by decide)).1 rfl
  simpa using h

/-- C6 amended: with the destination register X not being 0xF, shift
right (0x8XY6) stores VY >> 1 into VX and then sets VF to the low bit
of the register file entry Y as it stands after that store (the
pre-shift low bit when X and Y differ, the post-shift low bit when
X = Y), and shift left (0x8XYE) stores (VY * 2) mod 256 into VX and
then sets VF to the value VY AND 0x80 read after the store, which is
0 or 128, not a normalized 0 or 1. -/
theorem c6_theorem (c : Chip8) (op vy : Nat)
    (hV : c.V.length = 16)
    (hx : op / 256 % 16 ≠ 15)
    (hvy : c.V[op / 16 % 16]? = some vy) :
    (op % 16 = 6 → ∃ d, opcode0x8000 c op = .ok d ∧
      d.V[op / 256 % 16]? = some (vy / 2) ∧
      d.V[15]? = some ((if op / 256 % 16 = op / 16 % 16 then vy / 2 else vy) % 2) ∧
      d.pc = (c.pc + 2) % 65536) ∧
    (op % 16 = 14 → ∃ d, opcode0x8000 c op = .ok d ∧
      d.V[op / 256 % 16]? = some (vy * 2 % 256) ∧
      d.V[15]? = some ((if op / 256 % 16 = op / 16 % 16 then vy * 2 % 256 else vy)
        / 128 % 2 * 128) ∧
      d.pc = (c.pc + 2) % 65536) := by
  have hx16 : op / 256 % 16 < 16 := Nat.mod_lt _ (by norm_num)
  have hxl : op / 256 % 16 < c.V.length := by omega
  constructor
  · intro h6
    have hxl2 : (15 : Nat) < (c.V.set (op / 256 % 16) (vy / 2)).length := by
      rw [List.length_set]; omega
    have hvy2 : (c.V.set (op / 256 % 16) (vy / 2))[op / 16 % 16]?
        = some (if op / 256 % 16 = op / 16 % 16 then vy / 2 else vy) := by
      by_cases hxy : op / 256 % 16 = op / 16 % 16
      · rw [if_pos hxy, ← hxy, List.getElem?_set_self hxl]
      · rw [if_neg hxy, List.getElem?_set_ne hxy]; exact hvy
    refine ⟨{ c with
        V := (c.V.set (op / 256 % 16) (vy / 2)).set 15
          ((if op / 256 % 16 = op / 16 % 16 then vy / 2 else vy) % 2),
        pc := (c.pc + 2) % 65536 }, ?_, ?_, ?_, rfl⟩
    · simp only [opcode0x8000, h6, reduceIte, getA_eq_ok hvy, setA_eq_ok hxl,
        Exec.bind_ok, getA_eq_ok hvy2, setA_eq_ok hxl2]
      norm_num
    · rw [List.getElem?_set_ne (fun h => hx h.symm), List.getElem?_set_self hxl]
    · rw [List.getElem?_set_self hxl2]
  · intro h14
    have hxl2 : (15 : Nat) < (c.V.set (op / 256 % 16) (vy * 2 % 256)).length := by
      rw [List.length_set]; omega
    have hvy2 : (c.V.set (op / 256 % 16) (vy * 2 % 256))[op / 16 % 16]?
        = some (if op / 256 % 16 = op / 16 % 16 then vy * 2 % 256 else vy) := by
      by_cases hxy : op / 256 % 16 = op / 16 % 16
      · rw [if_pos hxy, ← hxy, List.getElem?_set_self hxl]
      · rw [if_neg hxy, List.getElem?_set_ne hxy]; exact hvy
    refine ⟨{ c with
        V := (c.V.set (op / 256 % 16) (vy * 2 % 256)).set 15
          ((if op / 256 % 16 = op / 16 % 16 then vy * 2 % 256 else vy)
            / 128 % 2 * 128),
        pc := (c.pc + 2) % 65536 }, ?_, ?_, ?_, rfl⟩
    · simp only [opcode0x8000, h14, reduceIte, getA_eq_ok hvy, setA_eq_ok hxl,
        Exec.bind_ok, getA_eq_ok hvy2, setA_eq_ok hxl2]
      norm_num
    · rw [List.getElem?_set_ne (fun h => hx h.symm), List.getElem?_set_self hxl]
    · rw [List.getElem?_set_self hxl2]

/-- C6 counterexample: opcode 0x801E (shift left, X = 0, Y = 1) on
V1 = 0x80. The claim predicts VF = 1 (the pre-shift most significant
bit as a 0/1 value); the handler stores V1 AND 0x80 = 128. -/
theorem c6_counterexample :
    regAt (opcode0x8000 (baseChip ((List.replicate 16 0).set 1 128)) 0x801E)
      15 = some 128 ∧
    regAt (opcode0x8000 (baseChip ((List.replicate 16 0).set 1 128)) 0x801E)
      15 ≠ some 1 := by
  decide

/-- C6 witness: opcode 0x8016 on V1 = 3 stores 1 into V0 and captures
the low bit 1 into VF. -/
theorem c6_witness :
    ∃ d, opcode0x8000 (baseChip ((List.replicate 16 0).set 1 3)) 0x8016
        = .ok d ∧
      d.V[0]? = some 1 ∧ d.V[15]? = some 1 ∧ d.pc = 514 := by
  have h := (c6_theorem (baseChip ((List.replicate 16 0).set 1 3)) 0x8016 3
    (by decide) (by decide) (by decide)).1 rfl
  simpa using h

/-- C10 amended: when the destination register X is 0xF, the add and
subtract handlers write the flag first and then evaluate the result
expression against the already overwritten flag register, so VF ends
as the wrap of the flag combined with VY (not the arithmetic result of
the original operands, and not the bare flag); the shift handlers
write the result first and the flag second, so VF ends as the captured
bit value (VY AND 0x01 for shift right, VY AND 0x80 for shift left)
and the shifted value is discarded. Y ranges over registers other
than 0xF. -/
theorem c10_theorem (c : Chip8) (op vy v15 : Nat)
    (hV : c.V.length = 16)
    (hx15 : op / 256 % 16 = 15) (hy : op / 16 % 16 ≠ 15)
    (hvy : c.V[op / 16 % 16]? = some vy)
    (hv15 : c.V[15]? = some v15) :
    (op % 16 = 4 → ∃ d, opcode0x8000 c op = .ok d ∧
      d.V[15]? = some (((if 255 - v15 < vy then 1 else 0) + vy) % 256)) ∧
    (op % 16 = 5 → ∃ d, opcode0x8000 c op = .ok d ∧
      d.V[15]? = some (((if v15 < vy then 0 else 1) + 256 - vy) % 256)) ∧
    (op % 16 = 7 → ∃ d, opcode0x8000 c op = .ok d ∧
      d.V[15]? = some ((vy + 256 - (if vy < v15 then 0 else 1)) % 256)) ∧
    (op % 16 = 6 → ∃ d, opcode0x8000 c op = .ok d ∧
      d.V[15]? = some (vy % 2)) ∧
    (op % 16 = 14 → ∃ d, opcode0x8000 c op = .ok d ∧
      d.V[15]? = some (vy / 128 % 2 * 128)) := by
  have h15 : (15 : Nat) < c.V.length := by omega
  have hyl : op / 16 % 16 < c.V.length := by
    have : op / 16 % 16 < 16 := Nat.mod_lt _ (by norm_num)
    omega
  refine ⟨?_, ?_, ?_, ?_, ?_⟩
  · intro h4
    have h15b : (15 : Nat) < (c.V.set 15 (if 255 - v15 < vy then 1 else 0)).length := by
      rw [List.length_set]; omega
    have hva : (c.V.set 15 (if 255 - v15 < vy then 1 else 0))[15]?
        = some (if 255 - v15 < vy then 1 else 0) := List.getElem?_set_self h15
    have hvb : (c.V.set 15 (if 255 - v15 < vy then 1 else 0))[op / 16 % 16]?
        = some vy := by rw [List.getElem?_set_ne (fun h => hy h.symm)]; exact hvy
    refine ⟨{ c with
        V := (c.V.set 15 (if 255 - v15 < vy then 1 else 0)).set 15
          (((if 255 - v15 < vy then 1 else 0) + vy) % 256),
        pc := (c.pc + 2) % 65536 }, ?_, ?_⟩
    · simp only [opcode0x8000, h4, hx15, reduceIte, getA_eq_ok hv15,
        getA_eq_ok hvy, setA_eq_ok h15, Exec.bind_ok, getA_eq_ok hva,
        getA_eq_ok hvb, setA_eq_ok h15b]
      norm_num
    · rw [List.getElem?_set_self h15b]
  · intro h5
    have h15b : (15 : Nat) < (c.V.set 15 (if v15 < vy then 0 else 1)).length := by
      rw [List.length_set]; omega
    have hva : (c.V.set 15 (if v15 < vy then 0 else 1))[15]?
        = some (if v15 < vy then 0 else 1) := List.getElem?_set_self h15
    have hvb : (c.V.set 15 (if v15 < vy then 0 else 1))[op / 16 % 16]?
        = some vy := by rw [List.getElem?_set_ne (fun h => hy h.symm)]; exact hvy
    refine ⟨{ c with
        V := (c.V.set 15 (if v15 < vy then 0 else 1)).set 15
          (((if v15 < vy then 0 else 1) + 256 - vy) % 256),
        pc := (c.pc + 2) % 65536 }, ?_, ?_⟩
    · simp only [opcode0x8000, h5, hx15, reduceIte, getA_eq_ok hv15,
        getA_eq_ok hvy, setA_eq_ok h15, Exec.bind_ok, getA_eq_ok hva,
        getA_eq_ok hvb, setA_eq_ok h15b]
      norm_num
    · rw [List.getElem?_set_self h15b]
  · intro h7
    have h15b : (15 : Nat) < (c.V.set 15 (if vy < v15 then 0 else 1)).length := by
      rw [List.length_set]; omega
    have hva : (c.V.set 15 (if vy < v15 then 0 else 1))[15]?
        = some (if vy < v15 then 0 else 1) := List.getElem?_set_self h15
    have hvb : (c.V.set 15 (if vy < v15 then 0 else 1))[op / 16 % 16]?
        = some vy := by rw [List.getElem?_set_ne (fun h => hy h.symm)]; exact hvy
    refine ⟨{ c with
        V := (c.V.set 15 (if vy < v15 then 0 else 1)).set 15
          ((vy + 256 - (if vy < v15 then 0 else 1)) % 256),
        pc := (c.pc + 2) % 65536 }, ?_, ?_⟩
    · simp only [opcode0x8000, h7, hx15, reduceIte, getA_eq_ok hv15,
        getA_eq_ok hvy, setA_eq_ok h15, Exec.bind_ok, getA_eq_ok hva,
        getA_eq_ok hvb, setA_eq_ok h15b]
      norm_num
    · rw [List.getElem?_set_self h15b]
  · intro h6
    have h15b : (15 : Nat) < (c.V.set 15 (vy / 2)).length := by
      rw [List.length_set]; omega
    have hvb : (c.V.set 15 (vy / 2))[op / 16 % 16]? = some vy := by
      rw [List.getElem?_set_ne (fun h => hy h.symm)]; exact hvy
    refine ⟨{ c with
        V := (c.V.set 15 (vy / 2)).set 15 (vy % 2),
        pc := (c.pc + 2) % 65536 }, ?_, ?_⟩
    · simp only [opcode0x8000, h6, hx15, reduceIte, getA_eq_ok hvy,
        setA_eq_ok h15, Exec.bind_ok, getA_eq_ok hvb, setA_eq_ok h15b]
      norm_num
    · rw [List.getElem?_set_self h15b]
  · intro h14
    have h15b : (15 : Nat) < (c.V.set 15 (vy * 2 % 256)).length := by
      rw [List.length_set]; omega
    have hvb : (c.V.set 15 (vy * 2 % 256))[op / 16 % 16]? = some vy := by
      rw [List.getElem?_set_ne (fun h => hy h.symm)]; exact hvy
    refine ⟨{ c with
        V := (c.V.set 15 (vy * 2 % 256)).set 15 (vy / 128 % 2 * 128),
        pc := (c.pc + 2) % 65536 }, ?_, ?_⟩
    · simp only [opcode0x8000, h14, hx15, reduceIte, getA_eq_ok hvy,
        setA_eq_ok h15, Exec.bind_ok, getA_eq_ok hvb, setA_eq_ok h15b]
      norm_num
    · rw [List.getElem?_set_self h15b]

/-- C10 counterexample: opcode 0x8F04 on VF = 5, V0 = 10. The claim
predicts VF holds the wrapped arithmetic result (5 + 10) mod 256 = 15;
the handler leaves VF = 10 (the carry flag 0 plus V0), so neither the
original sum nor the bare carry survives. -/
theorem c10_counterexample :
    regAt (opcode0x8000 (baseChip (((List.replicate 16 0).set 0 10).set 15 5))
      0x8F04) 15 = some 10 ∧
    regAt (opcode0x8000 (baseChip (((List.replicate 16 0).set 0 10).set 15 5))
      0x8F04) 15 ≠ some ((5 + 10) % 256) := by
  decide

/-- C10 witness: the shift right conjunct at VF = 5, V1 = 3, opcode
0x8F16: VF ends as the captured bit 1. -/
theorem c10_witness :
    ∃ d, opcode0x8000 (baseChip (((List.replicate 16 0).set 1 3).set 15 5))
        0x8F16 = .ok d ∧ d.V[15]? = some 1 := by
  have h := (c10_theorem (baseChip (((List.replicate 16 0).set 1 3).set 15 5))
    0x8F16 3 5 (by decide) (by decide) (by decide) (by decide)
    (by decide)).2.2.2.1 rfl
  simpa using h

/-- C7: with the stack pointer below capacity, a call pushes the
current pc (the call site, not yet advanced), jumps to NNN, and a
subsequent return pops the stack, resumes at the saved address plus 2
and restores the stack depth. -/
theorem c7_theorem (c : Chip8) (op : Nat)
    (hst : c.stack.length = 16) (hsp : c.sp < 16) (hpc2 : c.pc + 2 < 65536) :
    ∃ d, opcode0x2000 c op = .ok d ∧ d.pc = op % 4096 ∧ d.sp = c.sp + 1 ∧
      d.stack[c.sp]? = some c.pc ∧
      ∃ e, opcode0x0000 d 0xEE = .ok e ∧ e.pc = c.pc + 2 ∧ e.sp = c.sp := by
  have hspl : c.sp < c.stack.length := by omega
  have hsp1 : (c.sp + 1) % 65536 = c.sp + 1 := Nat.mod_eq_of_lt (by omega)
  refine ⟨{ c with
      stack := c.stack.set c.sp c.pc, sp := (c.sp + 1) % 65536,
      pc := op % 4096 }, ?_, rfl, hsp1, ?_, ?_⟩
  · simp only [opcode0x2000, setA_eq_ok hspl, Exec.bind_ok]
  · exact List.getElem?_set_self hspl
  · have hdec : ((c.sp + 1) % 65536 + 65536 - 1) % 65536 = c.sp := by
      rw [hsp1]; omega
    have hget : (c.stack.set c.sp c.pc)[((c.sp + 1) % 65536 + 65536 - 1) % 65536]?
        = some c.pc := by rw [hdec]; exact List.getElem?_set_self hspl
    refine ⟨{ c with
        stack := c.stack.set c.sp c.pc,
        sp := ((c.sp + 1) % 65536 + 65536 - 1) % 65536,
        pc := (c.pc + 2) % 65536 }, ?_, ?_, ?_⟩
    · simp only [opcode0x0000, getA_eq_ok hget, Exec.bind_ok]
      norm_num
    · exact Nat.mod_eq_of_lt hpc2
    · exact hdec

/-- C7 witness: call 0x2345 from pc = 0x200 with an empty stack, then
return: pc ends at 0x202 and the stack depth is 0 again. -/
theorem c7_witness :
    ∃ d, opcode0x2000 (baseChip (List.replicate 16 0)) 0x2345 = .ok d ∧
      d.pc = 0x2345 % 4096 ∧ d.sp = 0 + 1 ∧ d.stack[(0 : Nat)]? = some 512 ∧
      ∃ e, opcode0x0000 d 0xEE = .ok e ∧ e.pc = 512 + 2 ∧ e.sp = 0 := by
  exact c7_theorem (baseChip (List.replicate 16 0)) 0x2345 (by decide)
    (by decide) (by decide)

/-- C2 amended: a call executed with the stack pointer at capacity 16
performs an out-of-range store into the 16-entry stack (a runtime
panic), and a return executed with the stack pointer at 0 wraps the
uint16 stack pointer to 65535 and performs an out-of-range load (a
runtime panic); neither condition is reported as a returned error
value. -/
theorem c2_theorem (c d : Chip8) (op : Nat)
    (hc : c.stack.length = 16) (hcsp : c.sp = 16)
    (hd : d.stack.length = 16) (hdsp : d.sp = 0) :
    (opcode0x2000 c op = .oob ∧ (opcode0x2000 c op).isFail = false) ∧
    (opcode0x0000 d 0xEE = .oob ∧ (opcode0x0000 d 0xEE).isFail = false) := by
  have h1 : opcode0x2000 c op = .oob := by
    simp only [opcode0x2000, setA_eq_oob (by omega : c.stack.length ≤ c.sp),
      Exec.bind_oob]
  have h2 : opcode0x0000 d 0xEE = .oob := by
    have hw : (d.sp + 65536 - 1) % 65536 = 65535 := by rw [hdsp]
    have hlen : d.stack.length ≤ 65535 := by omega
    simp only [opcode0x0000, hw, getA_eq_oob hlen, Exec.bind_oob]
    norm_num
  exact ⟨⟨h1, by rw [h1]; rfl⟩, ⟨h2, by rw [h2]; rfl⟩⟩

/-- C2 counterexample: at stack pointer 16 the call opcode 0x2345 ends
in a runtime out-of-range panic, not a returned error, and at stack
pointer 0 the return opcode 0x00EE likewise panics after the pointer
wraps to 65535; no StackOverflow or StackUnderflow error value exists
in the code. -/
theorem c2_counterexample :
    opcode0x2000 { baseChip (List.replicate 16 0) with sp := 16 } 0x2345
      = Exec.oob ∧
    (opcode0x2000 { baseChip (List.replicate 16 0) with sp := 16 } 0x2345).isFail
      = false ∧
    opcode0x0000 (baseChip (List.replicate 16 0)) 0xEE = Exec.oob ∧
    (opcode0x0000 (baseChip (List.replicate 16 0)) 0xEE).isFail = false := by
  refine ⟨?_, ?_, ?_, ?_⟩ <;> decide

/-- C2 witness: the amended statement instantiated at concrete states
with sp = 16 for the call and sp = 0 for the return. -/
theorem c2_witness :
    (opcode0x2000 { baseChip (List.replicate 16 0) with sp := 16 } 0x2468
        = Exec.oob ∧
      (opcode0x2000 { baseChip (List.replicate 16 0) with sp := 16 }
        0x2468).isFail = false) ∧
    (opcode0x0000 { baseChip (List.replicate 16 0) with pc := 520 } 0xEE
        = Exec.oob ∧
      (opcode0x0000 { baseChip (List.replicate 16 0) with pc := 520 }
        0xEE).isFail = false) := by
  exact c2_theorem { baseChip (List.replicate 16 0) with sp := 16 }
    { baseChip (List.replicate 16 0) with pc := 520 } 0x2468
    (by decide) (by decide) (by decide) (by decide)

theorem waitKeyScan_all_zero (c : Chip8) (x i : Nat) (l : List Nat)
    (h : ∀ a ∈ l, a = 0) : waitKeyScan c x i l = .ok c := by
  induction l generalizing i with
  | nil => rfl
  | cons a rest ih =>
    have ha : a = 0 := h a (by simp)
    simp only [waitKeyScan, ha, ne_eq, not_true_eq_false, reduceIte]
    exact ih (i + 1) (fun b hb => h b (by simp [hb]))

theorem waitKeyScan_found (c : Chip8) (x : Nat) (l : List Nat) (p k : Nat)
    (hx : x < c.V.length)
    (hp : l[p]? = some k) (hk : k ≠ 0) (hz : ∀ j, j < p → l[j]? = some 0) :
    ∀ i, waitKeyScan c x i l =
      .ok { c with V := c.V.set x (i + p), pc := (c.pc + 2) % 65536 } := by
  induction l generalizing p with
  | nil => intro i; simp at hp
  | cons a rest ih =>
    intro i
    cases p with
    | zero =>
      have ha : a = k := by simpa using hp
      simp only [waitKeyScan, ha, hk, ne_eq, not_false_eq_true, reduceIte,
        setA_eq_ok hx, Exec.bind_ok, Nat.add_zero]
    | succ p' =>
      have ha : a = 0 := by have := hz 0 (Nat.succ_pos p'); simpa using this
      have hp' : rest[p']? = some k := by simpa using hp
      have hz' : ∀ j, j < p' → rest[j]? = some 0 := by
        intro j hj
        have := hz (j + 1) (by omega)
        simpa using this
      simp only [waitKeyScan, ha, ne_eq, not_true_eq_false, reduceIte]
      rw [ih p' hp' hz' (i + 1)]
      have : i + 1 + p' = i + (p' + 1) := by omega
      rw [this]

/-- C8 amended: executing the wait-for-key instruction 0xFX0A. While no
key is pressed the handler leaves the whole state unchanged (pc in
particular), provided the current value of VX is below 16; with VX at
16 or more the unconditional key-clearing write key[V[x]] = 0 indexes
out of the 16-entry key array (see the C8 counterexample). When some
key is pressed, the lowest pressed index i is recorded into VX, that
key is cleared, and pc advances by 2. -/
theorem c8_theorem (c : Chip8) (op vxv i k : Nat)
    (hV : c.V.length = 16) (hkey : c.key.length = 16)
    (hop : op % 256 = 10) :
    ((∀ a ∈ c.key, a = 0) → c.V[op / 256 % 16]? = some vxv → vxv < 16 →
      opcode0xF000 c op = .ok c) ∧
    (c.key[i]? = some k → k ≠ 0 → (∀ j, j < i → c.key[j]? = some 0) →
      opcode0xF000 c op = .ok { c with
        V := c.V.set (op / 256 % 16) i,
        pc := (c.pc + 2) % 65536,
        key := c.key.set i 0 }) := by
  have hx16 : op / 256 % 16 < 16 := Nat.mod_lt _ (by norm_num)
  have hxl : op / 256 % 16 < c.V.length := by omega
  constructor
  · intro hall hvx hlt
    have hscan := waitKeyScan_all_zero c (op / 256 % 16) 0 c.key hall
    have hset : c.key.set vxv 0 = c.key :=
      set_zero_of_all_zero hall (by omega)
    simp only [opcode0xF000, hop]
    norm_num
    simp only [hscan, Exec.bind_ok, getA_eq_ok hvx,
      setA_eq_ok (show vxv < c.key.length by omega), hset]
  · intro hp hk hz
    have hi : i < c.key.length := by
      by_contra hge
      rw [List.getElem?_eq_none (by omega)] at hp
      exact Option.noConfusion hp
    have hscan := waitKeyScan_found c (op / 256 % 16) c.key i k hxl hp hk hz 0
    have hvx2 : (c.V.set (op / 256 % 16) i)[op / 256 % 16]? = some i :=
      List.getElem?_set_self hxl
    rw [show (0 : Nat) + i = i by omega] at hscan
    simp only [opcode0xF000, hop]
    norm_num
    simp only [hscan, Exec.bind_ok, getA_eq_ok hvx2,
      setA_eq_ok (show i < c.key.length from hi)]

/-- C8 counterexample: with no key pressed and V0 = 16, the claim says
the step leaves the machine waiting with pc unchanged, but opcode
0xF00A ends in a runtime out-of-range panic: the handler always
executes key[V[0]] = 0 and 16 indexes past the 16-entry key array. -/
theorem c8_counterexample :
    opcode0xF000 (baseChip ((List.replicate 16 0).set 0 16)) 0xF00A
      = Exec.oob := by
  decide

/-- C8 witness: key 5 pressed, others idle, V0 arbitrary: the handler
records 5 into V0, clears key 5 and advances pc by 2. -/
theorem c8_witness :
    opcode0xF000 { baseChip (List.replicate 16 0) with
        key := (List.replicate 16 0).set 5 1 } 0xF00A
      = .ok { baseChip (List.replicate 16 0) with
          V := (List.replicate 16 0).set 0 5, pc := 514,
          key := ((List.replicate 16 0).set 5 1).set 5 0 } := by
  have h := (c8_theorem { baseChip (List.replicate 16 0) with
      key := (List.replicate 16 0).set 5 1 } 0xF00A 0 5 1
    (by decide) (by decide) (by decide)).2 (by decide) (by decide)
    (by decide)
  simpa using h

theorem copyROM_overflow (rom : List Nat) : ∀ (i : Nat) (mem : List Nat),
    mem.length < i + 512 + rom.length → 1 ≤ rom.length →
    copyROM mem i rom = .oob := by
  induction rom with
  | nil => intro i mem _ h1; simp at h1
  | cons b rest ih =>
    intro i mem hlen _
    by_cases hw : i + 512 < mem.length
    · have hrest : 1 ≤ rest.length := by
        by_contra hr
        have : rest.length = 0 := by omega
        simp [this] at hlen
        omega
      simp only [copyROM, setA_eq_ok hw, Exec.bind_ok]
      exact ih (i + 1) (mem.set (i + 512) b)
        (by rw [List.length_set]; simp at hlen ⊢; omega) hrest
    · simp only [copyROM,
        setA_eq_oob (show mem.length ≤ i + 512 by omega) b, Exec.bind_oob]

theorem copyROM_ok (rom : List Nat) : ∀ (i : Nat) (mem : List Nat),
    i + 512 + rom.length ≤ mem.length →
    ∃ m, copyROM mem i rom = .ok m ∧ m.length = mem.length ∧
      (∀ a, a < i + 512 → m[a]? = mem[a]?) ∧
      (∀ j, j < rom.length → m[i + 512 + j]? = rom[j]?) ∧
      (∀ a, i + 512 + rom.length ≤ a → m[a]? = mem[a]?) := by
  induction rom with
  | nil =>
    intro i mem _
    exact ⟨mem, rfl, rfl, fun _ _ => rfl, fun j hj => by simp at hj,
      fun _ _ => rfl⟩
  | cons b rest ih =>
    intro i mem hlen
    have hw : i + 512 < mem.length := by simp at hlen; omega
    obtain ⟨m, hm, hml, hlow, hmid, hhigh⟩ := ih (i + 1) (mem.set (i + 512) b)
      (by rw [List.length_set]; simp at hlen ⊢; omega)
    refine ⟨m, ?_, by rw [hml, List.length_set], ?_, ?_, ?_⟩
    · simp only [copyROM, setA_eq_ok hw, Exec.bind_ok]
      exact hm
    · intro a ha
      rw [hlow a (by omega), List.getElem?_set_ne (by omega)]
    · intro j hj
      cases j with
      | zero =>
        have := hlow (i + 512) (by omega)
        rw [Nat.add_zero, this, List.getElem?_set_self hw]
        simp
      | succ j' =>
        have := hmid j' (by simp at hj ⊢; omega)
        rw [show i + 512 + (j' + 1) = i + 1 + 512 + j' by omega, this]
        simp
    · intro a ha
      simp only [List.length_cons] at ha
      rw [hhigh a (by omega), List.getElem?_set_ne (by omega)]

/-- C3 amended: loadROM performs no size check. A ROM of length at
most 3584 is copied verbatim into memory starting at 0x200, leaving
the region below 0x200 (the font region) and the region above the ROM
unchanged; a ROM longer than 3584 bytes drives the copy loop past the
end of the 4096-byte memory array, a runtime out-of-range panic, and
no RomTooLarge error value is returned. -/
theorem c3_theorem (c : Chip8) (rom : List Nat) (hm : c.memory.length = 4096) :
    (3584 < rom.length →
      loadROM c rom = .oob ∧ (loadROM c rom).isFail = false) ∧
    (rom.length ≤ 3584 → ∃ d, loadROM c rom = .ok d ∧
      d.memory.length = 4096 ∧
      (∀ a, a < 512 → d.memory[a]? = c.memory[a]?) ∧
      (∀ j, j < rom.length → d.memory[512 + j]? = rom[j]?) ∧
      (∀ a, 512 + rom.length ≤ a → d.memory[a]? = c.memory[a]?) ∧
      d.V = c.V ∧ d.pc = c.pc ∧ d.I = c.I) := by
  constructor
  · intro hbig
    have h := copyROM_overflow rom 0 c.memory (by omega) (by omega)
    have hload : loadROM c rom = .oob := by
      simp only [loadROM, h, Exec.bind_oob]
    exact ⟨hload, by rw [hload]; rfl⟩
  · intro hsmall
    obtain ⟨m, hm1, hml, hlow, hmid, hhigh⟩ :=
      copyROM_ok rom 0 c.memory (by omega)
    refine ⟨{ c with memory := m }, ?_, by rw [hml, hm], ?_, ?_, ?_,
      rfl, rfl, rfl⟩
    · simp only [loadROM, hm1, Exec.bind_ok]
    · intro a ha; exact hlow a (by omega)
    · intro j hj
      have := hmid j hj
      rw [show (0 : Nat) + 512 + j = 512 + j by omega] at this
      exact this
    · intro a ha; exact hhigh a (by omega)

theorem baseChip_memory (v : List Nat) :
    (baseChip v).memory = List.replicate 4096 0 := rfl

/-- C3 counterexample: a 3585-byte ROM. The claim says the load fails
with a RomTooLarge error; the code has no size check, the copy loop
runs past the end of memory and the result is a runtime out-of-range
panic, not a returned error. -/
theorem c3_counterexample :
    loadROM (baseChip (List.replicate 16 0)) (List.replicate 3585 0)
      = Exec.oob ∧
    (loadROM (baseChip (List.replicate 16 0))
      (List.replicate 3585 0)).isFail = false := by
  have h := copyROM_overflow (List.replicate 3585 0) 0
    (baseChip (List.replicate 16 0)).memory
    (by rw [baseChip_memory, List.length_replicate, List.length_replicate]
        omega)
    (by rw [List.length_replicate]; omega)
  have hload : loadROM (baseChip (List.replicate 16 0))
      (List.replicate 3585 0) = Exec.oob := by
    simp only [loadROM, h, Exec.bind_oob]
  exact ⟨hload, by rw [hload]; rfl⟩

/-- C3 witness: loading the three-byte ROM [1, 2, 3] places the bytes
at 0x200..0x202 and leaves the font region untouched. -/
theorem c3_witness :
    ∃ d, loadROM (baseChip (List.replicate 16 0)) [1, 2, 3] = .ok d ∧
      d.memory.length = 4096 ∧ d.memory[512]? = some 1 ∧
      d.memory[513]? = some 2 ∧ d.memory[514]? = some 3 ∧
      d.memory[0]? = some 0 := by
  obtain ⟨d, hd, hlen, hlow, hrom, hhigh, _, _, _⟩ :=
    (c3_theorem (baseChip (List.replicate 16 0)) [1, 2, 3]
      (by rw [baseChip_memory, List.length_replicate])).2 (by norm_num)
  refine ⟨d, hd, hlen, ?_, ?_, ?_, ?_⟩
  · have := hrom 0 (by norm_num); simpa using this
  · have := hrom 1 (by norm_num); simpa using this
  · have := hrom 2 (by norm_num); simpa using this
  · have := hlow 0 (by norm_num)
    rw [this, baseChip_memory, List.getElem?_replicate]
    norm_num

theorem execFold_append {α : Type} (f : α → Nat → Exec α) (a : α)
    (l1 l2 : List Nat) :
    execFold f a (l1 ++ l2)
      = Exec.bind (execFold f a l1) (fun b => execFold f b l2) := by
  induction l1 generalizing a with
  | nil => rfl
  | cons i rest ih =>
    simp only [List.cons_append, execFold]
    cases f a i with
    | ok b => exact ih b
    | fail e => rfl
    | oob => rfl

theorem execFold_singleton {α : Type} (f : α → Nat → Exec α) (a : α) (i : Nat) :
    execFold f a [i] = f a i := by
  simp only [execFold]
  cases f a i <;> rfl

theorem regDump_fold (c : Chip8) (n : Nat)
    (hV : c.V.length = 16) (hm : c.memory.length = 4096)
    (hn : n ≤ 16) (hI : c.I + n ≤ 4096) :
    ∃ m, execFold
        (fun cc i =>
          Exec.bind (getA cc.V i) fun vi =>
            Exec.bind (setA cc.memory ((cc.I + i) % 65536) vi) fun mm =>
              .ok { cc with memory := mm })
        c (List.range n) = .ok { c with memory := m } ∧
      m.length = 4096 ∧
      (∀ j, j < n → m[c.I + j]? = c.V[j]?) ∧
      (∀ a, a < c.I ∨ c.I + n ≤ a → m[a]? = c.memory[a]?) := by
  induction n with
  | zero =>
    exact ⟨c.memory, rfl, hm, fun j hj => by omega, fun a _ => rfl⟩
  | succ n ihn =>
    obtain ⟨m, hfold, hml, hin, hout⟩ := ihn (by omega) (by omega)
    obtain ⟨vn, hvn⟩ : ∃ v, c.V[n]? = some v :=
      ⟨_, List.getElem?_eq_getElem (by omega)⟩
    have hmod : (c.I + n) % 65536 = c.I + n := Nat.mod_eq_of_lt (by omega)
    have hsetb : c.I + n < m.length := by omega
    refine ⟨m.set (c.I + n) vn, ?_, by rw [List.length_set]; omega, ?_, ?_⟩
    · rw [List.range_succ, execFold_append, hfold, Exec.bind_ok,
        execFold_singleton]
      simp only [getA_eq_ok hvn, Exec.bind_ok, hmod, setA_eq_ok hsetb]
    · intro j hj
      rcases Nat.lt_or_ge j n with hlt | hge
      · rw [List.getElem?_set_ne (by omega)]
        exact hin j hlt
      · have hjn : j = n := by omega
        rw [hjn, List.getElem?_set_self hsetb, hvn]
    · intro a ha
      rw [List.getElem?_set_ne (by omega)]
      exact hout a (by omega)

theorem regLoad_fold (c : Chip8) (n : Nat)
    (hV : c.V.length = 16) (hm : c.memory.length = 4096)
    (hn : n ≤ 16) (hI : c.I + n ≤ 4096) :
    ∃ v, execFold
        (fun cc i =>
          Exec.bind (getA cc.memory ((cc.I + i) % 65536)) fun mi =>
            Exec.bind (setA cc.V i mi) fun vv =>
              .ok { cc with V := vv })
        c (List.range n) = .ok { c with V := v } ∧
      v.length = 16 ∧
      (∀ j, j < n → v[j]? = c.memory[c.I + j]?) ∧
      (∀ j, n ≤ j → v[j]? = c.V[j]?) := by
  induction n with
  | zero =>
    exact ⟨c.V, rfl, hV, fun j hj => by omega, fun j _ => rfl⟩
  | succ n ihn =>
    obtain ⟨v, hfold, hvl, hin, hout⟩ := ihn (by omega) (by omega)
    obtain ⟨mn, hmn⟩ : ∃ w, c.memory[c.I + n]? = some w :=
      ⟨_, List.getElem?_eq_getElem (by omega)⟩
    have hmod : (c.I + n) % 65536 = c.I + n := Nat.mod_eq_of_lt (by omega)
    have hsetb : n < v.length := by omega
    refine ⟨v.set n mn, ?_, by rw [List.length_set]; omega, ?_, ?_⟩
    · rw [List.range_succ, execFold_append, hfold, Exec.bind_ok,
        execFold_singleton]
      simp only [hmod, getA_eq_ok hmn, Exec.bind_ok, setA_eq_ok hsetb]
    · intro j hj
      rcases Nat.lt_or_ge j n with hlt | hge
      · rw [List.getElem?_set_ne (by omega)]
        exact hin j hlt
      · have hjn : j = n := by omega
        rw [hjn, List.getElem?_set_self hsetb, hmn]
    · intro j hjge
      rw [List.getElem?_set_ne (by omega)]
      exact hout j (by omega)

/-- C9: for every x below 16, with the index register plus x in bounds,
the register dump opcode 0xFX55 copies V0..VX into memory at I..I+x,
and running the register load opcode 0xFX65 on the dumped memory with a
zeroed register file reproduces V0..VX exactly. -/
theorem c9_theorem (c : Chip8) (x : Nat) (hx : x < 16)
    (hV : c.V.length = 16) (hm : c.memory.length = 4096) (hI : c.I + x < 4096) :
    ∃ d, opcode0xF000 c (61440 + x * 256 + 85) = .ok d ∧
      (∀ j, j ≤ x → d.memory[c.I + j]? = c.V[j]?) ∧
      d.V = c.V ∧ d.I = c.I ∧ d.memory.length = 4096 ∧
      ∃ e, opcode0xF000 { d with V := List.replicate 16 0 }
          (61440 + x * 256 + 101) = .ok e ∧
        ∀ j, j ≤ x → e.V[j]? = c.V[j]? := by
  have hop85 : (61440 + x * 256 + 85) % 256 = 85 := by omega
  have hxe : (61440 + x * 256 + 85) / 256 % 16 = x := by omega
  obtain ⟨m, hfold, hml, hin, hout⟩ :=
    regDump_fold c (x + 1) hV hm (by omega) (by omega)
  have hop65 : (61440 + x * 256 + 101) % 256 = 101 := by omega
  have hxe65 : (61440 + x * 256 + 101) / 256 % 16 = x := by omega
  obtain ⟨v, hfold2, hvl, hin2, hout2⟩ :=
    regLoad_fold
      { c with
        memory := m,
        pc := (c.pc + 2) % 65536,
        V := List.replicate 16 0 } (x + 1)
      (by rw [List.length_replicate]) (by exact hml) (by omega)
      (by exact show c.I + (x + 1) ≤ 4096 by omega)
  refine ⟨{ c with memory := m, pc := (c.pc + 2) % 65536 }, ?_, ?_, rfl, rfl,
    hml, ?_⟩
  · simp only [opcode0xF000, hop85, hxe]
    norm_num
    rw [hfold]
    rfl
  · intro j hj
    exact hin j (by omega)
  · refine ⟨{ c with
        memory := m,
        V := v,
        pc := (((c.pc + 2) % 65536) + 2) % 65536 }, ?_, ?_⟩
    · simp only [opcode0xF000, hop65, hxe65]
      norm_num
      rw [hfold2]
      simp only [Exec.bind_ok, Nat.mod_add_mod]
    · intro j hj
      have h1 := hin2 j (by omega)
      have h2 := hin j (by omega)
      exact h1.trans h2

/-- Concrete machine for the C9 witness: V0 = 7, V1 = 9, V2 = 11 and
the index register at 0x300. -/
def c9state : Chip8 :=
  { baseChip ((((List.replicate 16 0).set 0 7).set 1 9).set 2 11) with
    I := 768 }

/-- C9 witness: x = 2, registers V0 = 7, V1 = 9, V2 = 11 dumped at
I = 0x300 and loaded back into a zeroed register file. -/
theorem c9_witness :
    ∃ d, opcode0xF000 c9state (61440 + 2 * 256 + 85) = .ok d ∧
      (∀ j, j ≤ 2 → d.memory[c9state.I + j]? = c9state.V[j]?) ∧
      d.V = c9state.V ∧ d.I = c9state.I ∧ d.memory.length = 4096 ∧
      ∃ e, opcode0xF000 { d with V := List.replicate 16 0 }
          (61440 + 2 * 256 + 101) = .ok e ∧
        ∀ j, j ≤ 2 → e.V[j]? = c9state.V[j]? := by
  exact c9_theorem c9state 2 (by omega) (by decide)
    (by rw [show c9state.memory = List.replicate 4096 0 from rfl,
      List.length_replicate])
    (by rw [show c9state.I = 768 from rfl]; omega)

/-- C4 amended: all sixteen opcode groups are registered, so a
top-level unknown group is impossible. An unknown secondary code in
groups 0x0, 0x8 and 0xF makes the step return the error built by the
handler, which reports the opcode value only (the program counter is
not part of the error). An unknown secondary code in group 0xE is not
detected at all: the handler has no default case and the step returns
success with the state, including pc, completely unchanged. -/
theorem c4_theorem (c : Chip8) (r op : Nat) (t : Bool)
    (hhi : c.memory[c.pc]? = some (op / 256))
    (hlo : c.memory[(c.pc + 1) % 65536]? = some (op % 256)) :
    (op / 4096 % 16 = 0 → op % 256 ≠ 0xE0 → op % 256 ≠ 0xEE →
      EmulateCycle r t c = .fail (unknownOpcode op)) ∧
    (op / 4096 % 16 = 8 → 8 ≤ op % 16 → op % 16 ≠ 14 →
      EmulateCycle r t c = .fail (unknownOpcode op)) ∧
    (op / 4096 % 16 = 15 → op % 256 ≠ 7 → op % 256 ≠ 10 → op % 256 ≠ 21 →
      op % 256 ≠ 24 → op % 256 ≠ 30 → op % 256 ≠ 41 → op % 256 ≠ 51 →
      op % 256 ≠ 85 → op % 256 ≠ 101 →
      EmulateCycle r t c = .fail (unknownOpcode op)) ∧
    (op / 4096 % 16 = 14 → op % 256 ≠ 0x9E → op % 256 ≠ 0xA1 →
      EmulateCycle r false c = .ok c) := by
  have hsplit : op / 256 * 256 + op % 256 = op := by omega
  refine ⟨?_, ?_, ?_, ?_⟩
  · intro h0 h1 h2
    have hh : opcode0x0000 c op = .fail (unknownOpcode op) := by
      simp only [opcode0x0000]
      rw [if_neg h1, if_neg h2]
    simp only [EmulateCycle, getA_eq_ok hhi, getA_eq_ok hlo, Exec.bind_ok,
      hsplit, dispatch, h0]
    norm_num
    rw [hh]
    rfl
  · intro h8 hge hne
    have hh : opcode0x8000 c op = .fail (unknownOpcode op) := by
      simp only [opcode0x8000]
      repeat rw [if_neg (show ¬ _ by omega)]
    simp only [EmulateCycle, getA_eq_ok hhi, getA_eq_ok hlo, Exec.bind_ok,
      hsplit, dispatch, h8]
    norm_num
    rw [hh]
    rfl
  · intro hF h1 h2 h3 h4 h5 h6 h7 h8 h9
    have hh : opcode0xF000 c op = .fail (unknownOpcode op) := by
      simp only [opcode0xF000]
      rw [if_neg h1, if_neg h2, if_neg h3, if_neg h4, if_neg h5, if_neg h6,
        if_neg h7, if_neg h8, if_neg h9]
    simp only [EmulateCycle, getA_eq_ok hhi, getA_eq_ok hlo, Exec.bind_ok,
      hsplit, dispatch, hF]
    norm_num
    rw [hh]
    rfl
  · intro hE h1 h2
    have hh : opcode0xE000 c op = .ok c := by
      simp only [opcode0xE000]
      rw [if_neg h1, if_neg h2]
    simp only [EmulateCycle, getA_eq_ok hhi, getA_eq_ok hlo, Exec.bind_ok,
      hsplit, dispatch, hE]
    norm_num
    rw [hh]
    rfl

/-- Concrete machine for the C4 counterexample: the two bytes at pc
hold the opcode 0xE0FF, which is not a recognized key-skip code. -/
def c4state : Chip8 :=
  { baseChip (List.replicate 16 0) with
    memory := ((List.replicate 4096 0).set 512 0xE0).set 513 0xFF }

/-- C4 counterexample: fetching the unrecognized opcode 0xE0FF does
not produce an UnknownOpcode error; the 0xE handler has no default
case, so the step succeeds and leaves the state, pc included,
unchanged. -/
theorem c4_counterexample :
    EmulateCycle 0 false c4state = Exec.ok c4state ∧
    (EmulateCycle 0 false c4state).isFail = false := by
  have hm : c4state.memory
      = ((List.replicate 4096 0).set 512 0xE0).set 513 0xFF := rfl
  have hhi : c4state.memory[c4state.pc]? = some (0xE0FF / 256) := by
    rw [show c4state.pc = 512 from rfl, hm,
      List.getElem?_set_ne (by omega),
      List.getElem?_set_self (by rw [List.length_replicate]; omega)]
  have hlo : c4state.memory[(c4state.pc + 1) % 65536]? = some (0xE0FF % 256) := by
    rw [show (c4state.pc + 1) % 65536 = 513 from rfl, hm,
      List.getElem?_set_self
        (by rw [List.length_set, List.length_replicate]; omega)]
  have h := (c4_theorem c4state 0 0xE0FF false hhi hlo).2.2.2
    (by norm_num) (by norm_num) (by norm_num)
  exact ⟨h, by rw [h]; rfl⟩

/-- C4 witness: with an all-zero memory the fetched opcode 0x0000 has
no recognized secondary code and the step returns the unknown-opcode
error carrying the opcode value. -/
theorem c4_witness :
    EmulateCycle 5 true (baseChip (List.replicate 16 0))
      = Exec.fail (unknownOpcode 0) := by
  have hhi : (baseChip (List.replicate 16 0)).memory[
      (baseChip (List.replicate 16 0)).pc]? = some (0 / 256) := by
    rw [show (baseChip (List.replicate 16 0)).pc = 512 from rfl,
      baseChip_memory, List.getElem?_replicate]
    norm_num
  have hlo : (baseChip (List.replicate 16 0)).memory[
      ((baseChip (List.replicate 16 0)).pc + 1) % 65536]? = some (0 % 256) := by
    rw [show ((baseChip (List.replicate 16 0)).pc + 1) % 65536 = 513 from rfl,
      baseChip_memory, List.getElem?_replicate]
    norm_num
  exact (c4_theorem (baseChip (List.replicate 16 0)) 5 0 true hhi hlo).1 rfl
    (by norm_num) (by norm_num)

theorem drawCols_fold (pixel xv yb : Nat) (gfx V : List Nat)
    (hg : gfx.length = 2048) (hV : V.length = 16)
    (hsmall : xv + 8 + yb * 64 < 65536) :
    ∀ m, m ≤ 8 →
    (∀ b, b < m → pixel / 2 ^ (7 - b) % 2 = 1 →
      xv + b + yb * 64 ≠ 2048) →
    ∃ g', execFold (drawColsStep pixel xv yb) (gfx, V) (List.range m)
        = .ok (g',
          if ∃ b, b < m ∧ pixel / 2 ^ (7 - b) % 2 = 1 ∧
              xv + b + yb * 64 < 2048 ∧ gfx[xv + b + yb * 64]?.getD 0 = 1
          then V.set 15 1 else V) ∧
      g'.length = 2048 ∧
      ∀ j, j < 2048 → g'[j]? = some
        (if ∃ b, b < m ∧ pixel / 2 ^ (7 - b) % 2 = 1 ∧ xv + b + yb * 64 = j
         then Nat.xor (gfx[j]?.getD 0) 1 else gfx[j]?.getD 0) := by
  intro m
  induction m with
  | zero =>
    intro _ _
    refine ⟨gfx, ?_, hg, ?_⟩
    · rw [if_neg (by rintro ⟨b, hb, _⟩; omega)]
      rfl
    · intro j hj
      have hjv : gfx[j]? = some gfx[j] := List.getElem?_eq_getElem (by omega)
      rw [if_neg (by rintro ⟨b, hb, _⟩; omega), hjv]
      rfl
  | succ m ihm =>
    intro hm8 hsafe
    obtain ⟨g, hfold, hgl, hpt⟩ := ihm (by omega) (fun b hb => hsafe b (by omega))
    have hmod : (xv + m + yb * 64) % 65536 = xv + m + yb * 64 :=
      Nat.mod_eq_of_lt (by omega)
    rw [List.range_succ, execFold_append, hfold, Exec.bind_ok,
      execFold_singleton]
    by_cases hskip : 2048 < xv + m + yb * 64
    · -- the index of bit m lies beyond the framebuffer and is skipped
      have hstep : drawColsStep pixel xv yb
          (g, if ∃ b, b < m ∧ pixel / 2 ^ (7 - b) % 2 = 1 ∧
              xv + b + yb * 64 < 2048 ∧ gfx[xv + b + yb * 64]?.getD 0 = 1
            then V.set 15 1 else V) m
          = .ok (g, if ∃ b, b < m ∧ pixel / 2 ^ (7 - b) % 2 = 1 ∧
              xv + b + yb * 64 < 2048 ∧ gfx[xv + b + yb * 64]?.getD 0 = 1
            then V.set 15 1 else V) := by
        simp only [drawColsStep, hmod]
        rw [if_pos (by omega : 64 * 32 < xv + m + yb * 64)]
      rw [hstep]
      have hiffV : (∃ b, b < m + 1 ∧ pixel / 2 ^ (7 - b) % 2 = 1 ∧
            xv + b + yb * 64 < 2048 ∧ gfx[xv + b + yb * 64]?.getD 0 = 1)
          ↔ (∃ b, b < m ∧ pixel / 2 ^ (7 - b) % 2 = 1 ∧
            xv + b + yb * 64 < 2048 ∧ gfx[xv + b + yb * 64]?.getD 0 = 1) := by
        constructor
        · rintro ⟨b, hb, h1, h2, h3⟩
          refine ⟨b, ?_, h1, h2, h3⟩
          rcases Nat.lt_or_ge b m with h | h
          · exact h
          · exfalso; have : b = m := by omega
            subst this; omega
        · rintro ⟨b, hb, h⟩; exact ⟨b, by omega, h⟩
      refine ⟨g, ?_, hgl, ?_⟩
      · simp only [hiffV]
      · intro j hj
        have := hpt j hj
        have hiffG : (∃ b, b < m + 1 ∧ pixel / 2 ^ (7 - b) % 2 = 1 ∧
              xv + b + yb * 64 = j)
            ↔ (∃ b, b < m ∧ pixel / 2 ^ (7 - b) % 2 = 1 ∧
              xv + b + yb * 64 = j) := by
          constructor
          · rintro ⟨b, hb, h1, h2⟩
            refine ⟨b, ?_, h1, h2⟩
            rcases Nat.lt_or_ge b m with h | h
            · exact h
            · exfalso; have : b = m := by omega
              subst this; omega
          · rintro ⟨b, hb, h⟩; exact ⟨b, by omega, h⟩
        rw [this]
        simp only [hiffG]
    · by_cases hbit : pixel / 2 ^ (7 - m) % 2 = 1
      · -- bit m is set and its index is written
        have hne : xv + m + yb * 64 ≠ 2048 := hsafe m (by omega) hbit
        have hlt : xv + m + yb * 64 < 2048 := by omega
        have hnohit : ¬ (∃ b, b < m ∧ pixel / 2 ^ (7 - b) % 2 = 1 ∧
            xv + b + yb * 64 = xv + m + yb * 64) := by
          rintro ⟨b, hb, _, heq⟩; omega
        have hgidx : g[xv + m + yb * 64]?
            = some (gfx[xv + m + yb * 64]?.getD 0) := by
          have := hpt (xv + m + yb * 64) hlt
          rw [if_neg hnohit] at this
          exact this
        have hVml : (if ∃ b, b < m ∧ pixel / 2 ^ (7 - b) % 2 = 1 ∧
              xv + b + yb * 64 < 2048 ∧ gfx[xv + b + yb * 64]?.getD 0 = 1
            then V.set 15 1 else V).length = 16 := by
          split <;> simp [List.length_set, hV]
        have hsetg : xv + m + yb * 64 < g.length := by omega
        have hstep : drawColsStep pixel xv yb
            (g, if ∃ b, b < m ∧ pixel / 2 ^ (7 - b) % 2 = 1 ∧
                xv + b + yb * 64 < 2048 ∧ gfx[xv + b + yb * 64]?.getD 0 = 1
              then V.set 15 1 else V) m
            = .ok (g.set (xv + m + yb * 64)
                (Nat.xor (gfx[xv + m + yb * 64]?.getD 0) 1),
              if gfx[xv + m + yb * 64]?.getD 0 = 1 then
                (if ∃ b, b < m ∧ pixel / 2 ^ (7 - b) % 2 = 1 ∧
                    xv + b + yb * 64 < 2048 ∧
                    gfx[xv + b + yb * 64]?.getD 0 = 1
                  then V.set 15 1 else V).set 15 1
              else
                (if ∃ b, b < m ∧ pixel / 2 ^ (7 - b) % 2 = 1 ∧
                    xv + b + yb * 64 < 2048 ∧
                    gfx[xv + b + yb * 64]?.getD 0 = 1
                  then V.set 15 1 else V)) := by
          simp only [drawColsStep, hmod]
          rw [if_neg (by omega : ¬ 64 * 32 < xv + m + yb * 64), if_pos hbit]
          rw [getA_eq_ok hgidx]
          simp only [Exec.bind_ok]
          by_cases hgv : gfx[xv + m + yb * 64]?.getD 0 = 1
          · rw [if_pos hgv, if_pos hgv, setA_eq_ok (by omega), Exec.bind_ok,
              setA_eq_ok hsetg, Exec.bind_ok]
          · rw [if_neg hgv, if_neg hgv, Exec.bind_ok, setA_eq_ok hsetg,
              Exec.bind_ok]
        rw [hstep]
        refine ⟨g.set (xv + m + yb * 64)
            (Nat.xor (gfx[xv + m + yb * 64]?.getD 0) 1), ?_, ?_, ?_⟩
        · by_cases hgv : gfx[xv + m + yb * 64]?.getD 0 = 1
          · rw [if_pos hgv,
              if_pos (show ∃ b, b < m + 1 ∧ pixel / 2 ^ (7 - b) % 2 = 1 ∧
                  xv + b + yb * 64 < 2048 ∧ gfx[xv + b + yb * 64]?.getD 0 = 1
                from ⟨m, by omega, hbit, hlt, hgv⟩)]
            split
            · rw [List.set_set]
            · rfl
          · rw [if_neg hgv]
            have hiffV : (∃ b, b < m + 1 ∧ pixel / 2 ^ (7 - b) % 2 = 1 ∧
                  xv + b + yb * 64 < 2048 ∧ gfx[xv + b + yb * 64]?.getD 0 = 1)
                ↔ (∃ b, b < m ∧ pixel / 2 ^ (7 - b) % 2 = 1 ∧
                  xv + b + yb * 64 < 2048 ∧
                  gfx[xv + b + yb * 64]?.getD 0 = 1) := by
              constructor
              · rintro ⟨b, hb, h1, h2, h3⟩
                refine ⟨b, ?_, h1, h2, h3⟩
                rcases Nat.lt_or_ge b m with h | h
                · exact h
                · exfalso; have : b = m := by omega
                  subst this; exact hgv h3
              · rintro ⟨b, hb, h⟩; exact ⟨b, by omega, h⟩
            simp only [hiffV]
        · rw [List.length_set]; exact hgl
        · intro j hj
          by_cases hjidx : j = xv + m + yb * 64
          · subst hjidx
            rw [List.getElem?_set_self hsetg,
              if_pos (show ∃ b, b < m + 1 ∧ pixel / 2 ^ (7 - b) % 2 = 1 ∧
                  xv + b + yb * 64 = xv + m + yb * 64
                from ⟨m, by omega, hbit, rfl⟩)]
          · rw [List.getElem?_set_ne (fun h => hjidx h.symm), hpt j hj]
            have hiffG : (∃ b, b < m + 1 ∧ pixel / 2 ^ (7 - b) % 2 = 1 ∧
                  xv + b + yb * 64 = j)
                ↔ (∃ b, b < m ∧ pixel / 2 ^ (7 - b) % 2 = 1 ∧
                  xv + b + yb * 64 = j) := by
              constructor
              · rintro ⟨b, hb, h1, h2⟩
                refine ⟨b, ?_, h1, h2⟩
                rcases Nat.lt_or_ge b m with h | h
                · exact h
                · exfalso; have : b = m := by omega
                  subst this; exact hjidx h2.symm
              · rintro ⟨b, hb, h⟩; exact ⟨b, by omega, h⟩
            simp only [hiffG]
      · -- bit m is clear and nothing happens
        have hstep : drawColsStep pixel xv yb
            (g, if ∃ b, b < m ∧ pixel / 2 ^ (7 - b) % 2 = 1 ∧
                xv + b + yb * 64 < 2048 ∧ gfx[xv + b + yb * 64]?.getD 0 = 1
              then V.set 15 1 else V) m
            = .ok (g, if ∃ b, b < m ∧ pixel / 2 ^ (7 - b) % 2 = 1 ∧
                xv + b + yb * 64 < 2048 ∧ gfx[xv + b + yb * 64]?.getD 0 = 1
              then V.set 15 1 else V) := by
          simp only [drawColsStep, hmod]
          rw [if_neg (by omega : ¬ 64 * 32 < xv + m + yb * 64), if_neg hbit]
        rw [hstep]
        have hiffV : (∃ b, b < m + 1 ∧ pixel / 2 ^ (7 - b) % 2 = 1 ∧
              xv + b + yb * 64 < 2048 ∧ gfx[xv + b + yb * 64]?.getD 0 = 1)
            ↔ (∃ b, b < m ∧ pixel / 2 ^ (7 - b) % 2 = 1 ∧
              xv + b + yb * 64 < 2048 ∧ gfx[xv + b + yb * 64]?.getD 0 = 1) := by
          constructor
          · rintro ⟨b, hb, h1, h2⟩
            refine ⟨b, ?_, h1, h2⟩
            rcases Nat.lt_or_ge b m with h | h
            · exact h
            · exfalso; have : b = m := by omega
              subst this; exact hbit h1
          · rintro ⟨b, hb, h⟩; exact ⟨b, by omega, h⟩
        refine ⟨g, ?_, hgl, ?_⟩
        · simp only [hiffV]
        · intro j hj
          rw [hpt j hj]
          have hiffG : (∃ b, b < m + 1 ∧ pixel / 2 ^ (7 - b) % 2 = 1 ∧
                xv + b + yb * 64 = j)
              ↔ (∃ b, b < m ∧ pixel / 2 ^ (7 - b) % 2 = 1 ∧
                xv + b + yb * 64 = j) := by
            constructor
            · rintro ⟨b, hb, h1, h2⟩
              refine ⟨b, ?_, h1, h2⟩
              rcases Nat.lt_or_ge b m with h | h
              · exact h
              · exfalso; have : b = m := by omega
                subst this; exact hbit h1
            · rintro ⟨b, hb, h⟩; exact ⟨b, by omega, h⟩
          simp only [hiffG]

/-- The sprite bit for row r, bit b targets framebuffer cell j: the
draw handler computes the cell index linearly as x + b + (y + r) * 64
(no wrap of the x coordinate at 64 or of the y coordinate at 32). -/
def drawHits (mem : List Nat) (I xv yv n j : Nat) : Prop :=
  ∃ r, r < n ∧ ∃ b, b < 8 ∧
    mem[I + r]?.getD 0 / 2 ^ (7 - b) % 2 = 1 ∧
    xv + b + (yv + r) * 64 = j

instance (mem : List Nat) (I xv yv n j : Nat) :
    Decidable (drawHits mem I xv yv n j) := by
  unfold drawHits
  infer_instance

/-- Some set sprite bit lands on an in-range framebuffer cell that is
already on: the condition under which the draw handler reports a
collision in VF. -/
def drawCollides (mem : List Nat) (I xv yv n : Nat) (gfx : List Nat) : Prop :=
  ∃ r, r < n ∧ ∃ b, b < 8 ∧
    mem[I + r]?.getD 0 / 2 ^ (7 - b) % 2 = 1 ∧
    xv + b + (yv + r) * 64 < 2048 ∧
    gfx[xv + b + (yv + r) * 64]?.getD 0 = 1

instance (mem : List Nat) (I xv yv n : Nat) (gfx : List Nat) :
    Decidable (drawCollides mem I xv yv n gfx) := by
  unfold drawCollides
  infer_instance

theorem drawRows_fold (mem : List Nat) (I xv yv : Nat) (gfx V : List Nat)
    (hm : mem.length = 4096) (hg : gfx.length = 2048) (hV : V.length = 16)
    (hxb : xv < 256) (hyb : yv < 256) :
    ∀ n, n ≤ 15 → I + n ≤ 4096 →
    (∀ r, r < n → ∀ b, b < 8 →
      mem[I + r]?.getD 0 / 2 ^ (7 - b) % 2 = 1 →
      xv + b + (yv + r) * 64 ≠ 2048) →
    ∃ g', execFold (drawRowStep mem I xv yv) (gfx, V) (List.range n)
        = .ok (g',
          if drawCollides mem I xv yv n gfx then V.set 15 1 else V) ∧
      g'.length = 2048 ∧
      ∀ j, j < 2048 → g'[j]? = some
        (if drawHits mem I xv yv n j
          then Nat.xor (gfx[j]?.getD 0) 1 else gfx[j]?.getD 0) := by
  intro n
  induction n with
  | zero =>
    intro _ _ _
    refine ⟨gfx, ?_, hg, ?_⟩
    · rw [if_neg (by rintro ⟨r, hr, _⟩; omega)]
      rfl
    · intro j hj
      have hjv : gfx[j]? = some gfx[j] := List.getElem?_eq_getElem (by omega)
      rw [if_neg (by rintro ⟨r, hr, _⟩; omega), hjv]
      rfl
  | succ n ihn =>
    intro hn15 hIn hsafe
    obtain ⟨g, hfold, hgl, hpt⟩ := ihn (by omega) (by omega)
      (fun r hr => hsafe r (by omega))
    have hmod : (I + n) % 65536 = I + n := Nat.mod_eq_of_lt (by omega)
    have hmem : mem[I + n]? = some (mem[I + n]?.getD 0) := by
      rw [List.getElem?_eq_getElem (by omega)]
      rfl
    have hWl : (if drawCollides mem I xv yv n gfx
        then V.set 15 1 else V).length = 16 := by
      split <;> simp [List.length_set, hV]
    obtain ⟨gr, hcfold, hgrl, hcpt⟩ := drawCols_fold
      (mem[I + n]?.getD 0) xv (yv + n) g
      (if drawCollides mem I xv yv n gfx then V.set 15 1 else V)
      hgl hWl (by omega) 8 (by omega)
      (fun b hb hbit => hsafe n (by omega) b hb hbit)
    have hcross : ∀ b, b < 8 → xv + b + (yv + n) * 64 < 2048 →
        ¬ drawHits mem I xv yv n (xv + b + (yv + n) * 64) := by
      rintro b hb hlt ⟨r, hr, b2, hb2, _, heq⟩
      omega
    have hgval : ∀ b, b < 8 → xv + b + (yv + n) * 64 < 2048 →
        g[xv + b + (yv + n) * 64]?.getD 0
          = gfx[xv + b + (yv + n) * 64]?.getD 0 := by
      intro b hb hlt
      have := hpt (xv + b + (yv + n) * 64) hlt
      rw [if_neg (hcross b hb hlt)] at this
      rw [this]
      rfl
    have hiffRow : (∃ b, b < 8 ∧
          mem[I + n]?.getD 0 / 2 ^ (7 - b) % 2 = 1 ∧
          xv + b + (yv + n) * 64 < 2048 ∧
          g[xv + b + (yv + n) * 64]?.getD 0 = 1)
        ↔ (∃ b, b < 8 ∧
          mem[I + n]?.getD 0 / 2 ^ (7 - b) % 2 = 1 ∧
          xv + b + (yv + n) * 64 < 2048 ∧
          gfx[xv + b + (yv + n) * 64]?.getD 0 = 1) := by
      constructor
      · rintro ⟨b, hb, h1, h2, h3⟩
        exact ⟨b, hb, h1, h2, by rw [← hgval b hb h2]; exact h3⟩
      · rintro ⟨b, hb, h1, h2, h3⟩
        exact ⟨b, hb, h1, h2, by rw [hgval b hb h2]; exact h3⟩
    rw [List.range_succ, execFold_append, hfold, Exec.bind_ok,
      execFold_singleton]
    have hstep : drawRowStep mem I xv yv
        (g, if drawCollides mem I xv yv n gfx then V.set 15 1 else V) n
        = execFold (drawColsStep (mem[I + n]?.getD 0) xv (yv + n))
          (g, if drawCollides mem I xv yv n gfx then V.set 15 1 else V)
          (List.range 8) := by
      simp only [drawRowStep, hmod, getA_eq_ok hmem, Exec.bind_ok]
    rw [hstep, hcfold]
    refine ⟨gr, ?_, hgrl, ?_⟩
    · simp only [hiffRow]
      by_cases hrow : ∃ b, b < 8 ∧
          mem[I + n]?.getD 0 / 2 ^ (7 - b) % 2 = 1 ∧
          xv + b + (yv + n) * 64 < 2048 ∧
          gfx[xv + b + (yv + n) * 64]?.getD 0 = 1
      · obtain ⟨b, hb, hrest⟩ := hrow
        rw [if_pos ⟨b, hb, hrest⟩,
          if_pos (show drawCollides mem I xv yv (n + 1) gfx
            from ⟨n, by omega, b, hb, hrest⟩)]
        split
        · rw [List.set_set]
        · rfl
      · rw [if_neg hrow]
        have hiffC : drawCollides mem I xv yv (n + 1) gfx
            ↔ drawCollides mem I xv yv n gfx := by
          constructor
          · rintro ⟨r, hr, b, hb, hrest⟩
            rcases Nat.lt_or_ge r n with h | h
            · exact ⟨r, h, b, hb, hrest⟩
            · exfalso
              have : r = n := by omega
              subst this
              exact hrow ⟨b, hb, hrest⟩
          · rintro ⟨r, hr, hrest⟩; exact ⟨r, by omega, hrest⟩
        simp only [hiffC]
    · intro j hj
      have hcj := hcpt j hj
      by_cases hrowj : ∃ b, b < 8 ∧
          mem[I + n]?.getD 0 / 2 ^ (7 - b) % 2 = 1 ∧
          xv + b + (yv + n) * 64 = j
      · obtain ⟨b, hb, hbit, hbeq⟩ := hrowj
        have hgj : g[j]?.getD 0 = gfx[j]?.getD 0 := by
          rw [← hbeq]
          exact hgval b hb (by omega)
        rw [if_pos ⟨b, hb, hbit, hbeq⟩] at hcj
        rw [hcj, hgj,
          if_pos (show drawHits mem I xv yv (n + 1) j
            from ⟨n, by omega, b, hb, hbit, hbeq⟩)]
      · rw [if_neg hrowj] at hcj
        rw [hcj, hpt j hj]
        have hiffH : drawHits mem I xv yv (n + 1) j
            ↔ drawHits mem I xv yv n j := by
          constructor
          · rintro ⟨r, hr, b, hb, hbit, hbeq⟩
            rcases Nat.lt_or_ge r n with h | h
            · exact ⟨r, h, b, hb, hbit, hbeq⟩
            · exfalso
              have : r = n := by omega
              subst this
              exact hrowj ⟨b, hb, hbit, hbeq⟩
          · rintro ⟨r, hr, hrest⟩; exact ⟨r, by omega, hrest⟩
        simp only [Option.getD_some, hiffH]

theorem drawCols_oob (pixel xv yb : Nat) (gfx V : List Nat)
    (hg : gfx.length = 2048) (hV : V.length = 16)
    (hsmall : xv + 8 + yb * 64 < 65536) :
    ∀ m, m ≤ 8 →
    (∃ b, b < m ∧ pixel / 2 ^ (7 - b) % 2 = 1 ∧ xv + b + yb * 64 = 2048) →
    execFold (drawColsStep pixel xv yb) (gfx, V) (List.range m) = .oob := by
  intro m
  induction m with
  | zero => rintro _ ⟨b, hb, _⟩; omega
  | succ m ihm =>
    rintro hm8 ⟨b, hb, hbit, heq⟩
    by_cases hin : ∃ b2, b2 < m ∧ pixel / 2 ^ (7 - b2) % 2 = 1 ∧
      xv + b2 + yb * 64 = 2048
    · rw [List.range_succ, execFold_append, ihm (by omega) hin]
      rfl
    · have hbm : b = m := by
        rcases Nat.lt_or_ge b m with h | h
        · exact absurd ⟨b, h, hbit, heq⟩ hin
        · omega
      subst hbm
      obtain ⟨g, hfold, hgl, _⟩ := drawCols_fold pixel xv yb gfx V hg hV
        hsmall b (by omega)
        (fun b2 hb2 hbit2 he => hin ⟨b2, hb2, hbit2, he⟩)
      rw [List.range_succ, execFold_append, hfold, Exec.bind_ok,
        execFold_singleton]
      simp only [drawColsStep, heq]
      rw [show (2048 : Nat) % 65536 = 2048 from by norm_num,
        if_neg (by norm_num : ¬ 64 * 32 < 2048), if_pos hbit,
        getA_eq_oob (show g.length ≤ 2048 by omega)]
      rfl

theorem drawRows_oob (mem : List Nat) (I xv yv : Nat) (gfx V : List Nat)
    (hm : mem.length = 4096) (hg : gfx.length = 2048) (hV : V.length = 16)
    (hxb : xv < 256) (hyb : yv < 256) :
    ∀ n, n ≤ 15 → I + n ≤ 4096 →
    (∃ r, r < n ∧ ∃ b, b < 8 ∧
      mem[I + r]?.getD 0 / 2 ^ (7 - b) % 2 = 1 ∧
      xv + b + (yv + r) * 64 = 2048) →
    execFold (drawRowStep mem I xv yv) (gfx, V) (List.range n) = .oob := by
  intro n
  induction n with
  | zero => rintro _ _ ⟨r, hr, _⟩; omega
  | succ n ihn =>
    rintro hn15 hIn ⟨r, hr, b, hb, hbit, heq⟩
    by_cases hin : ∃ r2, r2 < n ∧ ∃ b2, b2 < 8 ∧
      mem[I + r2]?.getD 0 / 2 ^ (7 - b2) % 2 = 1 ∧
      xv + b2 + (yv + r2) * 64 = 2048
    · rw [List.range_succ, execFold_append, ihn (by omega) (by omega) hin]
      rfl
    · have hrn : r = n := by
        rcases Nat.lt_or_ge r n with h | h
        · exact absurd ⟨r, h, b, hb, hbit, heq⟩ hin
        · omega
      subst hrn
      obtain ⟨g, hfold, hgl, _⟩ := drawRows_fold mem I xv yv gfx V hm hg hV
        hxb hyb r (by omega) (by omega)
        (fun r2 hr2 b2 hb2 hbit2 he => hin ⟨r2, hr2, b2, hb2, hbit2, he⟩)
      rw [List.range_succ, execFold_append, hfold, Exec.bind_ok,
        execFold_singleton]
      have hmod : (I + r) % 65536 = I + r := Nat.mod_eq_of_lt (by omega)
      have hmem : mem[I + r]? = some (mem[I + r]?.getD 0) := by
        rw [List.getElem?_eq_getElem (by omega)]
        rfl
      have hWl : (if drawCollides mem I xv yv r gfx
          then V.set 15 1 else V).length = 16 := by
        split <;> simp [List.length_set, hV]
      have hcols := drawCols_oob (mem[I + r]?.getD 0) xv (yv + r) g
        (if drawCollides mem I xv yv r gfx then V.set 15 1 else V) hgl hWl
        (by omega) 8 (by omega) ⟨b, hb, hbit, heq⟩
      simp only [drawRowStep, hmod, getA_eq_ok hmem, Exec.bind_ok]
      exact hcols

/-- C1 amended: the draw handler computes each target cell linearly as
VX + bit + (VY + row) * 64 with no modulo-64 wrap of the x coordinate
and no modulo-32 wrap of the y coordinate. First conjunct: when no set
bit maps to index exactly 2048, the step succeeds; indices beyond the
2048-cell framebuffer are skipped (clipped), each set bit XORs its
cell, VF ends 1 exactly when some set bit lands on an in-range cell
that was already on, pc advances by 2 and the draw flag is raised.
Second conjunct: when some set bit maps to index exactly 2048, the
handler reads past the framebuffer — a runtime index-out-of-range
panic. -/
theorem c1_theorem (c : Chip8) (op xv yv : Nat)
    (hg : c.gfx.length = 2048) (hV : c.V.length = 16)
    (hm : c.memory.length = 4096)
    (hxv : c.V[op / 256 % 16]? = some xv)
    (hyv : c.V[op / 16 % 16]? = some yv)
    (hxb : xv < 256) (hyb : yv < 256)
    (hI : c.I + op % 16 ≤ 4096) :
    ((∀ r, r < op % 16 → ∀ b, b < 8 →
        c.memory[c.I + r]?.getD 0 / 2 ^ (7 - b) % 2 = 1 →
        xv + b + (yv + r) * 64 ≠ 2048) →
      ∃ d, opcode0xD000 c op = .ok d ∧
        d.gfx.length = 2048 ∧
        (∀ j, j < 2048 → d.gfx[j]? = some
          (if drawHits c.memory c.I xv yv (op % 16) j
            then Nat.xor (c.gfx[j]?.getD 0) 1 else c.gfx[j]?.getD 0)) ∧
        d.V[15]? = some
          (if drawCollides c.memory c.I xv yv (op % 16) c.gfx
            then 1 else 0) ∧
        (∀ i, i < 16 → i ≠ 15 → d.V[i]? = c.V[i]?) ∧
        d.pc = (c.pc + 2) % 65536 ∧ d.drawFlag = true) ∧
    ((∃ r, r < op % 16 ∧ ∃ b, b < 8 ∧
        c.memory[c.I + r]?.getD 0 / 2 ^ (7 - b) % 2 = 1 ∧
        xv + b + (yv + r) * 64 = 2048) →
      opcode0xD000 c op = .oob) := by
  have h15 : (15 : Nat) < c.V.length := by omega
  constructor
  · intro hsafe
    obtain ⟨g', hfold, hgl, hpt⟩ := drawRows_fold c.memory c.I xv yv c.gfx
      (c.V.set 15 0) hm hg (by rw [List.length_set]; omega) hxb hyb
      (op % 16) (by omega) hI hsafe
    refine ⟨{ c with
        gfx := g',
        V := if drawCollides c.memory c.I xv yv (op % 16) c.gfx
          then (c.V.set 15 0).set 15 1 else c.V.set 15 0,
        drawFlag := true,
        pc := (c.pc + 2) % 65536 }, ?_, hgl, hpt, ?_, ?_, rfl, rfl⟩
    · simp only [opcode0xD000, getA_eq_ok hxv, getA_eq_ok hyv, Exec.bind_ok,
        setA_eq_ok h15, hfold]
    · by_cases hc : drawCollides c.memory c.I xv yv (op % 16) c.gfx
      · rw [if_pos hc, if_pos hc,
          List.getElem?_set_self (by rw [List.length_set]; omega)]
      · rw [if_neg hc, if_neg hc, List.getElem?_set_self h15]
    · intro i hi hne
      by_cases hc : drawCollides c.memory c.I xv yv (op % 16) c.gfx
      · rw [if_pos hc, List.getElem?_set_ne (fun h => hne h.symm),
          List.getElem?_set_ne (fun h => hne h.symm)]
      · rw [if_neg hc, List.getElem?_set_ne (fun h => hne h.symm)]
  · intro hhit
    have hoob := drawRows_oob c.memory c.I xv yv c.gfx (c.V.set 15 0)
      hm hg (by rw [List.length_set]; omega) hxb hyb
      (op % 16) (by omega) hI hhit
    simp only [opcode0xD000, getA_eq_ok hxv, getA_eq_ok hyv, Exec.bind_ok,
      setA_eq_ok h15, hoob, Exec.bind_oob]

/-- Concrete machine for the C1 counterexample: V0 = 63, V1 = 0,
I = 0 and the single sprite row 0xC0 (two leftmost bits set) at
memory address 0. -/
def c1state : Chip8 :=
  { baseChip ((List.replicate 16 0).set 0 63) with
    memory := (List.replicate 4096 0).set 0 192 }

set_option maxRecDepth 4000 in
/-- C1 counterexample: drawing the one-row sprite 0xC0 at x = 63,
y = 0 with opcode 0xD011 on a blank screen. Under the claim the two
set bits are XORed into the pixels with x coordinates (63 + 0) mod 64
= 63 and (63 + 1) mod 64 = 0, both with y coordinate 0, so the claim
predicts framebuffer cell 0 becomes 1 and cell 64 (pixel (0, 1) of
the next row) stays 0. The handler computes the linear index
63 + 1 + 0 * 64 = 64 instead: cell 64 becomes 1 and cell 0 stays 0,
refuting the modulo-64 wrap at this input. The last conjunct records
the wrapped target cells the claim prescribes. -/
theorem c1_counterexample :
    gfxAt (opcode0xD000 c1state 0xD011) 64 = some 1 ∧
    gfxAt (opcode0xD000 c1state 0xD011) 0 = some 0 ∧
    ((63 + 0) % 64 + (0 + 0) % 32 * 64 = 63 ∧
      (63 + 1) % 64 + (0 + 0) % 32 * 64 = 0 ∧
      c1state.gfx[0]?.getD 0 = 0 ∧ c1state.gfx[64]?.getD 0 = 0) := by
  have hgfx : c1state.gfx = List.replicate 2048 0 := rfl
  have hml : c1state.memory.length = 4096 := by
    rw [show c1state.memory = (List.replicate 4096 0).set 0 192 from rfl,
      List.length_set, List.length_replicate]
  have hgl2 : c1state.gfx.length = 2048 := by
    rw [hgfx, List.length_replicate]
  have hVl : (c1state.V.set 15 0).length = 16 := by decide
  have hg64 : c1state.gfx[64]?.getD 0 = 0 := by
    rw [hgfx, List.getElem?_replicate]
    norm_num
  have hg0 : c1state.gfx[0]?.getD 0 = 0 := by
    rw [hgfx, List.getElem?_replicate]
    norm_num
  obtain ⟨g', hfold, hgl, hpt⟩ := drawRows_fold c1state.memory c1state.I 63 0
    c1state.gfx (c1state.V.set 15 0) hml hgl2 hVl (by norm_num) (by norm_num)
    1 (by norm_num) (by rw [show c1state.I = 0 from rfl]; norm_num)
    (by intro r hr b hb _; omega)
  have hnc : ¬ drawCollides c1state.memory c1state.I 63 0 1 c1state.gfx := by
    rintro ⟨r, hr, b, hb, _, hlt, hone⟩
    rw [hgfx, List.getElem?_replicate, if_pos hlt] at hone
    exact absurd hone (by decide)
  rw [if_neg hnc] at hfold
  have hxv : c1state.V[0xD011 / 256 % 16]? = some 63 := by decide
  have hyv : c1state.V[0xD011 / 16 % 16]? = some 0 := by decide
  have h15 : (15 : Nat) < c1state.V.length := by decide
  have hstep : opcode0xD000 c1state 0xD011 = .ok { c1state with
      gfx := g',
      V := c1state.V.set 15 0,
      drawFlag := true,
      pc := (c1state.pc + 2) % 65536 } := by
    simp only [opcode0xD000, getA_eq_ok hxv, getA_eq_ok hyv, Exec.bind_ok,
      setA_eq_ok h15]
    rw [show (0xD011 : Nat) % 16 = 1 from by norm_num, hfold]
    rfl
  have hmem0 : c1state.memory[(0 : Nat)]? = some 192 := by
    rw [show c1state.memory = (List.replicate 4096 0).set 0 192 from rfl,
      List.getElem?_set_self (by rw [List.length_replicate]; omega)]
  have hhit64 : drawHits c1state.memory c1state.I 63 0 1 64 := by
    refine ⟨0, by norm_num, 1, by norm_num, ?_, by norm_num⟩
    rw [show c1state.I + 0 = 0 from rfl, hmem0]
    norm_num
  have hno0 : ¬ drawHits c1state.memory c1state.I 63 0 1 0 := by
    rintro ⟨r, hr, b, hb, _, heq⟩
    omega
  refine ⟨?_, ?_, by norm_num, by norm_num, hg0, hg64⟩
  · have h1 : gfxAt (opcode0xD000 c1state 0xD011) 64 = g'[64]? := by
      rw [hstep]
      rfl
    rw [h1, hpt 64 (by norm_num), if_pos hhit64, hg64]
    decide
  · have h1 : gfxAt (opcode0xD000 c1state 0xD011) 0 = g'[0]? := by
      rw [hstep]
      rfl
    rw [h1, hpt 0 (by norm_num), if_neg hno0, hg0]

/-- Concrete machine for the C1 witness: V0 = 5, V1 = 3, I = 0 and
sprite row 0xC0 at memory address 0. -/
def c1wit : Chip8 :=
  { baseChip (((List.replicate 16 0).set 0 5).set 1 3) with
    memory := (List.replicate 4096 0).set 0 192 }

/-- Concrete machine for the panic half of the C1 witness: V0 = 60,
V1 = 31, I = 0 and sprite row 0x08 (single set bit b = 4) at memory
address 0, so the bit maps to index 60 + 4 + 31 * 64 = 2048 exactly. -/
def c1wit2 : Chip8 :=
  { baseChip (((List.replicate 16 0).set 0 60).set 1 31) with
    memory := (List.replicate 4096 0).set 0 8 }

set_option maxRecDepth 4000 in
/-- C1 witness: the amended draw characterization at concrete states.
First conjunct: drawing the sprite row 0xC0 at x = 5, y = 3 succeeds
with the linear-index XOR/clip/VF behavior. Second conjunct: drawing
the sprite row 0x08 at x = 60, y = 31 puts a set bit at index exactly
2048 and the handler reads past the framebuffer (runtime panic). -/
theorem c1_witness :
    (∃ d, opcode0xD000 c1wit 0xD011 = .ok d ∧
      d.gfx.length = 2048 ∧
      (∀ j, j < 2048 → d.gfx[j]? = some
        (if drawHits c1wit.memory c1wit.I 5 3 (0xD011 % 16) j
          then Nat.xor (c1wit.gfx[j]?.getD 0) 1 else c1wit.gfx[j]?.getD 0)) ∧
      d.V[15]? = some
        (if drawCollides c1wit.memory c1wit.I 5 3 (0xD011 % 16) c1wit.gfx
          then 1 else 0) ∧
      (∀ i, i < 16 → i ≠ 15 → d.V[i]? = c1wit.V[i]?) ∧
      d.pc = (c1wit.pc + 2) % 65536 ∧ d.drawFlag = true) ∧
    opcode0xD000 c1wit2 0xD011 = .oob := by
  constructor
  · exact (c1_theorem c1wit 0xD011 5 3
      (by rw [show c1wit.gfx = List.replicate 2048 0 from rfl,
        List.length_replicate])
      (by decide)
      (by rw [show c1wit.memory = (List.replicate 4096 0).set 0 192 from rfl,
        List.length_set, List.length_replicate])
      (by decide) (by decide) (by decide) (by decide)
      (by rw [show c1wit.I = 0 from rfl]; norm_num)).1
      (by intro r hr b hb _; omega)
  · have hmem0 : c1wit2.memory[c1wit2.I + (0 : Nat)]? = some 8 := by
      rw [show c1wit2.I + (0 : Nat) = 0 from rfl,
        show c1wit2.memory = (List.replicate 4096 0).set 0 8 from rfl,
        List.getElem?_set_self (by rw [List.length_replicate]; omega)]
    exact (c1_theorem c1wit2 0xD011 60 31
      (by rw [show c1wit2.gfx = List.replicate 2048 0 from rfl,
        List.length_replicate])
      (by decide)
      (by rw [show c1wit2.memory = (List.replicate 4096 0).set 0 8 from rfl,
        List.length_set, List.length_replicate])
      (by decide) (by decide) (by decide) (by decide)
      (by rw [show c1wit2.I = 0 from rfl]; norm_num)).2
      ⟨0, by norm_num, 4, by norm_num, by rw [hmem0]; norm_num, by norm_num⟩
